import Mathlib

/-!
A shallow embedding of the Modbus TCP connection manager
(`src/modbus/modbus_manager.py`, plus the auto-connect retry loop of
`src/modbus/app.py`), with theorems checking the specification's claims.

Modelling conventions:
* Python exceptions are values of `PyExn`; fallible code returns `Except`.
* The network is an oracle (`World`): transport connect outcomes are a
  function of the number of connect calls made so far, and device responses
  to register reads/writes are functions of the request.
* Every operation additionally returns the list of I/O events it performed
  (transport connects/closes, register reads/writes, sleeps), so that
  claims about "no I/O", request counts, ordering and backoff waits can be
  stated over the event list.
* Python floats that only ever hold exactly-representable values
  (timeouts, `0.5 * attempt` backoffs, `0.02` inter-request delay) are
  modelled as rationals.
* The per-connection non-reentrant `threading.Lock` is part of the
  connection state (`Conn.locked`); a call that blocks forever on its
  acquisition is reported as the `hang` outcome of `ReadResult`.
-/

/-- Register space tag: the `type` strings `"holding" | "input" | "coils" | "discrete"`
accepted by `ModbusConnection._single_read`. -/
inductive RegType
  | holding
  | input
  | coils
  | discrete
deriving DecidableEq

/-- Python exceptions surfaced by the code under analysis.
`modbusExc` stands for `pymodbus.exceptions.ModbusIOException`. -/
inductive PyExn
  | modbusExc (msg : String)
  | valueError (msg : String)
  | typeError (msg : String)
  | connectionError (msg : String)
deriving DecidableEq

/-- Message carried by an exception: Python `str(e)`. -/
def pyExnMsg : PyExn → String
  | .modbusExc m => m
  | .valueError m => m
  | .typeError m => m
  | .connectionError m => m

/-- Outcome of one `client.read_*` call, as seen by `_single_read`:
the pymodbus call may return `None`, return an error response `rr` with
`rr.isError()` and `str(rr) = msg`, return data, or raise. -/
inductive ReadOutcome
  | noResponse
  | errorResp (msg : String)
  | ok (values : List Int)
  | raises (e : PyExn)
deriving DecidableEq

/-- A write request dispatched to the pymodbus client: the four distinct
underlying operations used by `ModbusConnection.write`. -/
inductive WriteReq
  | singleReg (address : Int) (value : Int)
  | multiReg (address : Int) (values : List Int)
  | singleCoil (address : Int) (value : Bool)
  | multiCoil (address : Int) (values : List Bool)
deriving DecidableEq

/-- Outcome of one `client.write_*` call. -/
inductive WriteOutcome
  | ok
  | errorResp (msg : String)
  | raises (e : PyExn)
deriving DecidableEq

/-- Outcome of a call to `ModbusConnection.read` as observed by its caller:
a returned value list, a raised exception, or no outcome at all (`hang`)
because the call blocks forever. `read` runs under `with self._lock:`
(line 144) and `self._lock` is a plain, non-reentrant `threading.Lock`
(line 49); the model executes a single thread, so an acquisition that finds
the lock held is an acquisition by the very thread that holds it, and it
deadlocks. -/
inductive ReadResult
  | ok (values : List Int)
  | exn (e : PyExn)
  | hang
deriving DecidableEq

/-- Observable I/O performed by the manager: transport-level socket
operations, register-level sub-requests, and sleeps. -/
inductive IOEvent
  | tClose
  | tConnect (host : String) (port : Int)
  | tRead (t : RegType) (address : Int) (count : Nat)
  | tWrite (req : WriteReq)
  | tSleep (seconds : ℚ)
deriving DecidableEq

/-- A `ModbusTcpClient` object: created by `ModbusTcpClient(host, port=..., timeout=...)`.
The initial client (from `__init__`) has no explicit timeout. -/
structure Client where
  host : String
  port : Int
  timeout : Option ℚ
deriving DecidableEq

/-- The `_max_read` per-type limits (`DEFAULT_MAX_READ` possibly updated by
`max_read_override`); the dict always holds the four keys. -/
structure MaxRead where
  holding : Nat
  input : Nat
  coils : Nat
  discrete : Nat
deriving DecidableEq

/-- Lookup `self._max_read.get(type, ...)`. -/
def MaxRead.get (m : MaxRead) : RegType → Nat
  | .holding => m.holding
  | .input => m.input
  | .coils => m.coils
  | .discrete => m.discrete

/-- The dict `ModbusConnection.DEFAULT_MAX_READ`. -/
def defaultMaxRead : MaxRead := ⟨100, 100, 100, 100⟩

/-- The `self.last_read` snapshot dict; `adjusted_from`/`adjusted_to` are the
optional keys added by the address-fallback probe. -/
structure LastRead where
  timestamp : ℚ
  rtype : RegType
  address : Int
  count : Int
  values : List Int
  adjusted_from : Option Int
  adjusted_to : Option Int
deriving DecidableEq

/-- One entry of `self.poll_history`, built by the `_worker` loop of
`start_poll`: `values` on success, `error = str(e)` on failure. -/
structure PollEntry where
  timestamp : ℚ
  rtype : RegType
  address : Int
  count : Int
  values : Option (List Int)
  error : Option String
deriving DecidableEq

/-- The mutable state of one `ModbusConnection` relevant to the claims.
`client` is `Option` so that the spec's "handle = null" is expressible;
the source constructor always installs a client object. `locked` models
`self._lock`, the per-connection non-reentrant `threading.Lock` (line 49):
`true` while a call holds it. The thread bookkeeping fields
(`_poll_thread`, `_poll_stop`) are not represented. -/
structure Conn where
  host : String
  port : Int
  unit : Int
  client : Option Client
  connected : Bool
  lastRead : Option LastRead
  pollHistory : List PollEntry
  maxRead : MaxRead
  interRequestDelay : ℚ
  locked : Bool
deriving DecidableEq

/-- The environment oracle: transport connect outcomes by connect-call index,
device responses by request, and the wall clock. -/
structure World where
  connectR : Nat → Except PyExn Bool
  nConnect : Nat
  device : RegType → Int → Nat → ReadOutcome
  writeDev : WriteReq → WriteOutcome
  now : ℚ

namespace ModbusConnection

/-- One `client.connect()` transport call: consumes the next oracle outcome
and logs the attempt. -/
def clientConnect (w : World) (host : String) (port : Int) :
    Except PyExn Bool × World × List IOEvent :=
  (w.connectR w.nConnect, { w with nConnect := w.nConnect + 1 }, [.tConnect host port])

/-- `ModbusConnection.connect(timeout=5.0)` (modbus_manager.py lines 59-68):
close the old client, install a fresh `ModbusTcpClient(host, port, timeout)`,
attempt the transport connect; any exception is absorbed into a `False`
return (the Bool result type reflects that `connect` never raises).
If `self.client` were `None`, `self.client.close()` would raise and be
absorbed by the same handler. -/
def connect (c : Conn) (w : World) (timeout : ℚ) :
    Bool × Conn × World × List IOEvent :=
  match c.client with
  | none => (false, { c with connected := false }, w, [])
  | some _ =>
    let newClient : Client := ⟨c.host, c.port, some timeout⟩
    match clientConnect w c.host c.port with
    | (.ok b, w', ev) =>
      (b, { c with client := some newClient, connected := b }, w', .tClose :: ev)
    | (.error _, w', ev) =>
      (false, { c with client := some newClient, connected := false }, w', .tClose :: ev)

/-- `ModbusConnection.close()` (lines 70-76): closes the transport if a client
is present and always clears `connected`. The `stop_poll()` call only touches
thread bookkeeping and is not represented. -/
def close (c : Conn) (w : World) : Conn × World × List IOEvent :=
  match c.client with
  | some _ => ({ c with connected := false }, w, [.tClose])
  | none => ({ c with connected := false }, w, [])

/-- `ModbusConnection._ensure_connected()` (lines 78-81): if currently marked
connected with a live client, perform a `client.connect()` health check (an
exception here propagates, as in the source where no handler surrounds it);
otherwise, or on a falsy check, fall back to `self.connect()` with the
default timeout `5.0`. -/
def ensureConnected (c : Conn) (w : World) :
    Except PyExn Bool × Conn × World × List IOEvent :=
  match c.connected, c.client with
  | true, some _ =>
    match clientConnect w c.host c.port with
    | (.error e, w', ev) => (.error e, c, w', ev)
    | (.ok true, w', ev) => (.ok true, c, w', ev)
    | (.ok false, w', ev) =>
      let (b, c', w'', ev2) := connect c w' 5
      (.ok b, c', w'', ev ++ ev2)
  | _, _ =>
    let (b, c', w', ev) := connect c w 5
    (.ok b, c', w', ev)

/-- Value transformation applied by `_single_read` to a device response:
register reads return `list(rr.registers)` unchanged; bit reads return
`[1 if b else 0 for b in rr.bits[:count]]` (Python truthiness on the
returned bits). -/
def singleReadVals (t : RegType) (vs : List Int) (count : Nat) : List Int :=
  match t with
  | .holding => vs
  | .input => vs
  | .coils => (vs.take count).map (fun b => if b ≠ 0 then 1 else 0)
  | .discrete => (vs.take count).map (fun b => if b ≠ 0 then 1 else 0)

/-- The pymodbus read method name used for register space `t`, as it appears
in the "No response for ..." message of `_single_read`. -/
def readMethodName : RegType → String
  | .holding => "read_holding_registers"
  | .input => "read_input_registers"
  | .coils => "read_coils"
  | .discrete => "read_discrete_inputs"

/-- The per-space wording of the "Modbus Error reading ..." message of
`_single_read`. -/
def readErrNoun : RegType → String
  | .holding => "holding registers"
  | .input => "input registers"
  | .coils => "coils"
  | .discrete => "discrete inputs"

/-- Message of the `ModbusIOException` raised by `_single_read` when the
client call returns `None`. -/
def noRespMsg (t : RegType) (address : Int) (count : Nat) (unit : Int) : String :=
  "No response for " ++ readMethodName t ++ "(address=" ++ toString address ++
    ", count=" ++ toString count ++ ", unit=" ++ toString unit ++ ")"

/-- Message of the `ModbusIOException` raised by `_single_read` when the
response has `rr.isError()`; `rrStr` is Python's `str(rr)`. -/
def readErrMsg (t : RegType) (address : Int) (count : Nat) (rrStr : String) : String :=
  "Modbus Error reading " ++ readErrNoun t ++ " at " ++ toString address ++
    " (count=" ++ toString count ++ "): " ++ rrStr

/-- `ModbusConnection._single_read(type, address, count)` (lines 83-112):
one register-level sub-request against the device oracle. Always logs
exactly one `tRead` event (the client call is made in every branch). -/
def singleRead (c : Conn) (w : World) (t : RegType) (address : Int) (count : Nat) :
    Except PyExn (List Int) × List IOEvent :=
  let ev : List IOEvent := [.tRead t address count]
  match w.device t address count with
  | .noResponse => (.error (.modbusExc (noRespMsg t address count c.unit)), ev)
  | .errorResp rrStr => (.error (.modbusExc (readErrMsg t address count rrStr)), ev)
  | .ok vs => (.ok (singleReadVals t vs count), ev)
  | .raises e => (.error e, ev)

/-- Is `sub` an initial segment of `l`? -/
def charsStartWith : List Char → List Char → Bool
  | [], _ => true
  | _ :: _, [] => false
  | a :: as, b :: bs => a == b && charsStartWith as bs

/-- Does `l` contain `sub` as a contiguous segment? -/
def charsContain (sub : List Char) : List Char → Bool
  | [] => charsStartWith sub []
  | b :: bs => charsStartWith sub (b :: bs) || charsContain sub bs

/-- Substring test: Python's `sub in msg`, as containment of the character
sequence. -/
def containsSub (msg sub : String) : Bool :=
  charsContain sub.toList msg.toList

/-- The illegal-address-class test of `ModbusConnection.read` (line 190):
`"IllegalAddress" in msg or "Illegal Data Address" in msg or "Illegal" in msg`. -/
def isIllegalMsg (msg : String) : Bool :=
  containsSub msg "IllegalAddress" || containsSub msg "Illegal Data Address" ||
    containsSub msg "Illegal"

/-- `ModbusConnection._probe_address(type, addr)` (lines 114-128): a
single-unit read; `True` exactly when no exception is raised (the data
list returned by `_single_read` is never `None`). -/
def probeAddress (c : Conn) (w : World) (t : RegType) (addr : Int) :
    Bool × List IOEvent :=
  match singleRead c w t addr 1 with
  | (.ok _, ev) => (true, ev)
  | (.error _, ev) => (false, ev)

/-- The probe offsets generated by the fallback loop of `read`
(lines 193-195): `for delta in range(1, alt_probe_range + 1): for sign in (1, -1)`,
i.e. `address+1, address-1, address+2, address-2, ...`. -/
def probeCandidates (address : Int) (altProbeRange : Nat) : List Int :=
  (List.range altProbeRange).flatMap
    (fun d : Nat => [address + ((d : Int) + 1), address - ((d : Int) + 1)])

/-- The probe loop of `read` (lines 193-198): walk the candidates in order,
skipping negative addresses (`continue`), and stop at the first address
whose probe succeeds. -/
def probeLoop (c : Conn) (w : World) (t : RegType) :
    List Int → Option Int × List IOEvent
  | [] => (none, [])
  | a :: rest =>
    if a < 0 then probeLoop c w t rest
    else
      match probeAddress c w t a with
      | (true, ev) => (some a, ev)
      | (false, ev) =>
        let (r, ev2) := probeLoop c w t rest
        (r, ev ++ ev2)

/-- The chunked-read loop of `read` (lines 168-181), structurally recursive
on a fuel bound on the number of iterations. Each iteration consumes at
least `chunk ≥ 1` of `remaining` whenever `maxA ≥ 1` (which `read`
guarantees), so with the initial `fuel = remaining` the fuel never runs
out; the fuel-exhausted branch mirrors the `remaining = 0` exit. -/
def chunkLoop (c : Conn) (w : World) (t : RegType) (address : Int) (maxA : Nat) :
    Nat → List Int → Nat → Nat → Except PyExn (List Int) × List IOEvent
  | 0, results, _, _ => (.ok results, [])
  | fuel + 1, results, remaining, offset =>
    if remaining = 0 then (.ok results, [])
    else
      let chunk := if remaining ≤ maxA then remaining else maxA
      match singleRead c w t (address + (offset : Int)) chunk with
      | (.error e, ev) => (.error e, ev)
      | (.ok part, ev) =>
        let results' := results ++ part
        let remaining' := remaining - part.length
        let offset' := offset + part.length
        if part.length < chunk then (.ok results', ev)
        else if remaining' = 0 then (.ok results', ev)
        else
          let (r, ev2) := chunkLoop c w t address maxA fuel results' remaining' offset'
          (r, ev ++ .tSleep c.interRequestDelay :: ev2)

/-- The part of `ModbusConnection.read` before the `try` block
(lines 145-151): argument validation, then `_ensure_connected` with
escalation to `ConnectionError`. `.ok ()` means execution reaches the
`try` block. -/
def readPre (c : Conn) (w : World) (address : Int) (count : Int) :
    Except PyExn Unit × Conn × World × List IOEvent :=
  if address < 0 then
    (.error (.valueError "address must be a non-negative integer"), c, w, [])
  else if count ≤ 0 then
    (.error (.valueError "count must be >= 1"), c, w, [])
  else
    match ensureConnected c w with
    | (.error e, c', w', ev) => (.error e, c', w', ev)
    | (.ok false, c', w', ev) =>
      (.error (.connectionError ("Unable to connect to " ++ c.host ++ ":" ++
        toString c.port)), c', w', ev)
    | (.ok true, c', w', ev) => (.ok (), c', w', ev)

/-- The `try` body of `ModbusConnection.read` (lines 153-184): compute
`max_allowed`, then either the single-request fast path or the chunked
loop; on success, truncate to `count` (chunked path), install `last_read`
and return the values. Errors are returned raw for the caller's handler;
they leave the connection state untouched. -/
def readTry (c : Conn) (w : World) (t : RegType) (address : Int) (count : Int)
    (maxPerRequest : Option Int) : Except PyExn (List Int) × Conn × List IOEvent :=
  let maxAllowed : Int :=
    match maxPerRequest with
    | none => (c.maxRead.get t : Int)
    | some m => m
  let maxA : Nat := if maxAllowed ≤ 0 then 100 else maxAllowed.toNat
  let n : Nat := count.toNat
  if n ≤ maxA then
    match singleRead c w t address n with
    | (.ok vs, ev) =>
      (.ok vs, { c with lastRead := some ⟨w.now, t, address, count, vs, none, none⟩ }, ev)
    | (.error e, ev) => (.error e, c, ev)
  else
    match chunkLoop c w t address maxA n [] n 0 with
    | (.ok results, ev) =>
      let results' := results.take n
      (.ok results', { c with lastRead := some ⟨w.now, t, address, count, results', none, none⟩ },
        ev)
    | (.error e, ev) => (.error e, c, ev)

/-- The body of `ModbusConnection.read` at `try_alternatives=False`, as run
under the lock: the exception handler reduces to "force `connected = False`
and re-raise" (lines 210-217). This is what the recursive call
`self.read(..., try_alternatives=False)` of line 202 would execute once it
acquired the lock; `readNested` wraps it in the lock acquisition, and
`read_noalt` proves that `read` at `tryAlternatives = false` coincides with
`readNested`. -/
def readPlain (c : Conn) (w : World) (t : RegType) (address : Int) (count : Int)
    (maxPerRequest : Option Int) :
    Except PyExn (List Int) × Conn × World × List IOEvent :=
  match readPre c w address count with
  | (.error e, c1, w1, ev) => (.error e, c1, w1, ev)
  | (.ok _, c1, w1, ev) =>
    match readTry c1 w1 t address count maxPerRequest with
    | (.ok vs, c2, ev2) => (.ok vs, c2, w1, ev ++ ev2)
    | (.error e, c2, ev2) => (.error e, { c2 with connected := false }, w1, ev ++ ev2)

/-- The recursive `self.read(..., try_alternatives=False)` call of line 202,
as the Python runtime executes it: entering `read` first acquires
`self._lock` (`with self._lock:`, line 144). `self._lock` is a plain
non-reentrant `threading.Lock`, so when the lock is already held - and at
line 202 it is: the outer `read` acquired it at line 144 and still holds it
inside the exception handler - the acquisition blocks forever and the call
hangs, its state and trace frozen as they were. With the lock free, the
call acquires it, runs the `try_alternatives=False` body (`readPlain`) and
releases it on the way out. -/
def readNested (c : Conn) (w : World) (t : RegType) (address : Int) (count : Int)
    (maxPerRequest : Option Int) : ReadResult × Conn × World × List IOEvent :=
  if c.locked then (.hang, c, w, [])
  else
    match readPlain { c with locked := true } w t address count maxPerRequest with
    | (.ok vs, c2, w2, ev) => (.ok vs, { c2 with locked := false }, w2, ev)
    | (.error e, c2, w2, ev) => (.exn e, { c2 with locked := false }, w2, ev)

/-- The body of `ModbusConnection.read(type, address, count, max_per_request,
try_alternatives, alt_probe_range)` under `with self._lock:` (lines 145-217),
run on a connection whose lock the caller holds. On a `ModbusIOException`
from the `try` body with probing enabled and an illegal-address-class
message, the handler probes neighbouring addresses (`+1, -1, +2, -2, ...`)
and, at the first readable address, reissues the full request with fallback
disabled - the recursive `self.read` of line 202, embedded as `readNested`.
Were that call to return, its successful result would be returned with
`last_read` tagged `adjusted_from`/`adjusted_to` (lines 203-207); in fact it
finds the lock held and hangs. If no probe succeeds, the original message is
re-raised with probe context and `connected` is left untouched (line 209).
Every other fault forces `connected = False` and propagates. -/
def readBody (c : Conn) (w : World) (t : RegType) (address : Int) (count : Int)
    (maxPerRequest : Option Int) (tryAlternatives : Bool) (altProbeRange : Nat) :
    ReadResult × Conn × World × List IOEvent :=
  match readPre c w address count with
  | (.error e, c1, w1, ev) => (.exn e, c1, w1, ev)
  | (.ok _, c1, w1, ev) =>
    match readTry c1 w1 t address count maxPerRequest with
    | (.ok vs, c2, ev2) => (.ok vs, c2, w1, ev ++ ev2)
    | (.error e, c2, ev2) =>
      match e with
      | .modbusExc msg =>
        if tryAlternatives && isIllegalMsg msg then
          match probeLoop c2 w1 t (probeCandidates address altProbeRange) with
          | (some probeAddr, ev3) =>
            match readNested c2 w1 t probeAddr count maxPerRequest with
            | (.ok vs, c4, w4, ev4) =>
              let c5 :=
                match c4.lastRead with
                | some lr =>
                  let lr' : LastRead :=
                    ⟨lr.timestamp, lr.rtype, lr.address, lr.count, lr.values,
                      some address, some probeAddr⟩
                  { c4 with lastRead := some lr' }
                | none => c4
              (.ok vs, c5, w4, ev ++ ev2 ++ ev3 ++ ev4)
            | (.exn e2, c4, w4, ev4) => (.exn e2, c4, w4, ev ++ ev2 ++ ev3 ++ ev4)
            | (.hang, c4, w4, ev4) => (.hang, c4, w4, ev ++ ev2 ++ ev3 ++ ev4)
          | (none, ev3) =>
            (.exn (.modbusExc (msg ++ " (and probe in +/-" ++ toString altProbeRange ++
              " failed)")), c2, w1, ev ++ ev2 ++ ev3)
        else (.exn (.modbusExc msg), { c2 with connected := false }, w1, ev ++ ev2)
      | _ => (.exn e, { c2 with connected := false }, w1, ev ++ ev2)

/-- `ModbusConnection.read` (lines 130-217): acquire the non-reentrant
per-connection lock (`with self._lock:`, line 144), run the body, release
the lock on every exit - normal return or exception. A call made while the
lock is already held blocks forever on the acquisition (`hang`); a body
that hangs never reaches the release, so the lock stays held. In the
`hang` outcome, the returned connection, world and event list record the
state reached and the I/O performed up to the moment the execution blocked
(nothing is actually handed back to the caller). -/
def read (c : Conn) (w : World) (t : RegType) (address : Int) (count : Int)
    (maxPerRequest : Option Int) (tryAlternatives : Bool) (altProbeRange : Nat) :
    ReadResult × Conn × World × List IOEvent :=
  if c.locked then (.hang, c, w, [])
  else
    match readBody { c with locked := true } w t address count maxPerRequest
        tryAlternatives altProbeRange with
    | (.ok vs, c2, w2, ev) => (.ok vs, { c2 with locked := false }, w2, ev)
    | (.exn e, c2, w2, ev) => (.exn e, { c2 with locked := false }, w2, ev)
    | (.hang, c2, w2, ev) => (.hang, c2, w2, ev)

/-- The single-value/sequence argument of `write`: Python is dynamically
typed, so a caller may pass a bare int where the code does `len(values)`. -/
inductive PyVal
  | pyInt (n : Int)
  | pyList (vs : List Int)
deriving DecidableEq

/-- One `client.write_*` call against the device oracle; always logs the
request that was dispatched. -/
def clientWrite (w : World) (req : WriteReq) : Except PyExn Unit × List IOEvent :=
  match w.writeDev req with
  | .ok => (.ok (), [.tWrite req])
  | .errorResp msg => (.error (.modbusExc msg), [.tWrite req])
  | .raises e => (.error e, [.tWrite req])

/-- `ModbusConnection.write(type, address, values)` (lines 219-242):
reconnect check, then dispatch on the register space and on `len(values)`
(1 → single-register/single-coil op, otherwise multi op). A bare int
`values` makes `len(values)` raise `TypeError`; `input`/`discrete` raise
`ValueError("unsupported write type")`. All faults inside the `try` force
`connected = False` and propagate. -/
def write (c : Conn) (w : World) (t : RegType) (address : Int) (values : PyVal) :
    Except PyExn Bool × Conn × World × List IOEvent :=
  match ensureConnected c w with
  | (.error e, c1, w1, ev) => (.error e, c1, w1, ev)
  | (.ok false, c1, w1, ev) =>
    (.error (.connectionError ("Unable to connect to " ++ c.host ++ ":" ++
      toString c.port)), c1, w1, ev)
  | (.ok true, c1, w1, ev) =>
    let tryResult : Except PyExn Unit × List IOEvent :=
      match t with
      | .holding =>
        match values with
        | .pyInt _ => (.error (.typeError "object of type 'int' has no len()"), [])
        | .pyList vs =>
          if vs.length = 1 then clientWrite w1 (.singleReg address vs.headI)
          else clientWrite w1 (.multiReg address vs)
      | .coils =>
        match values with
        | .pyInt _ => (.error (.typeError "'int' object is not iterable"), [])
        | .pyList vs =>
          let bitvals := vs.map (fun v => v != 0)
          if bitvals.length = 1 then clientWrite w1 (.singleCoil address bitvals.headI)
          else clientWrite w1 (.multiCoil address bitvals)
      | _ => (.error (.valueError "unsupported write type"), [])
    match tryResult with
    | (.ok _, ev2) => (.ok true, c1, w1, ev ++ ev2)
    | (.error e, ev2) => (.error e, { c1 with connected := false }, w1, ev ++ ev2)

/-- History maintenance of the `_worker` poll loop (lines 257-259):
`poll_history.append(entry)`, then `pop(0)` once if the length exceeds
`max_history`. -/
def pollHistoryStep (h : List PollEntry) (entry : PollEntry) (maxHistory : Nat) :
    List PollEntry :=
  let h' := h ++ [entry]
  if maxHistory < h'.length then h'.drop 1 else h'

/-- One iteration of the `_worker` loop of `start_poll` (lines 250-263):
attempt the read with default options, record a success or error entry,
and apply the bounded-history append. A read that never returns leaves
the worker blocked inside it: no entry is appended. -/
def pollIteration (c : Conn) (w : World) (t : RegType) (address : Int) (count : Int)
    (maxHistory : Nat) : Conn × World × List IOEvent :=
  match read c w t address count none false 5 with
  | (.ok vs, c2, w2, ev) =>
    let entry : PollEntry := ⟨w2.now, t, address, count, some vs, none⟩
    ({ c2 with pollHistory := pollHistoryStep c2.pollHistory entry maxHistory }, w2, ev)
  | (.exn e, c2, w2, ev) =>
    let entry : PollEntry := ⟨w2.now, t, address, count, none, some (pyExnMsg e)⟩
    ({ c2 with pollHistory := pollHistoryStep c2.pollHistory entry maxHistory }, w2, ev)
  | (.hang, c2, w2, ev) => (c2, w2, ev)

end ModbusConnection

/-- The auto-connect retry loop of `app.py` (lines 92-107 and 370-383):
`while attempt < max_attempts: attempt += 1; ok = conn.connect(); if ok:
break; time.sleep(backoff_base * attempt)`. The first argument is the
number of iterations still permitted (`max_attempts - attempt`); the
second is the current value of `attempt`. -/
def autoLoop (b : ℚ) : Nat → Nat → Conn → World → Bool × Conn × World × List IOEvent
  | 0, _, c, w => (false, c, w, [])
  | n + 1, attempt, c, w =>
    let a := attempt + 1
    let (ok, c', w', ev) := ModbusConnection.connect c w 5
    if ok then (true, c', w', ev)
    else
      let (r, c'', w'', ev2) := autoLoop b n a c' w'
      (r, c'', w'', ev ++ .tSleep (b * (a : ℚ)) :: ev2)

/-- The retry loop started from `attempt = 0` with a configurable attempt
budget and backoff base. -/
def autoConnect (b : ℚ) (maxAttempts : Nat) (c : Conn) (w : World) :
    Bool × Conn × World × List IOEvent :=
  autoLoop b maxAttempts 0 c w

/-- The concrete instantiation used by `app.py`: `max_attempts = 5`,
`backoff_base = 0.5`. -/
def appAutoConnect (c : Conn) (w : World) : Bool × Conn × World × List IOEvent :=
  autoConnect (1/2) 5 c w

/-- Event classifiers for stating I/O-based claims. -/
def isConnectEv : IOEvent → Bool
  | .tConnect _ _ => true
  | _ => false

def isReadEv : IOEvent → Bool
  | .tRead _ _ _ => true
  | _ => false

def isWriteEv : IOEvent → Bool
  | .tWrite _ => true
  | _ => false

/-- Group the sleep durations of a trace by the transport connect attempt
they precede: entry `k` of the result (0-indexed) is the list of waits
performed immediately before attempt `k + 1`. -/
def waitsBefore : List IOEvent → List ℚ → List (List ℚ)
  | [], _ => []
  | .tSleep q :: rest, acc => waitsBefore rest (acc ++ [q])
  | .tConnect _ _ :: rest, acc => acc :: waitsBefore rest []
  | _ :: rest, acc => waitsBefore rest acc

deriving instance DecidableEq for Except

/-! Concrete fixtures used by witnesses and counterexamples. -/

/-- A connection as built by `ModbusConnection.__init__("10.0.0.1", 502, 1)`:
in particular, its lock is free. -/
def sampleClient : Client := ⟨"10.0.0.1", 502, none⟩

def sampleConn : Conn :=
  ⟨"10.0.0.1", 502, 1, some sampleClient, true, none, [], defaultMaxRead, 1/50, false⟩

def sampleConnDown : Conn := { sampleConn with connected := false }

/-- The values `address, address+1, ...` (one per requested item). -/
def rampVals (a : Int) (k : Nat) : List Int :=
  (List.range k).map (fun i : Nat => a + (i : Int))

/-- A device that answers every read with `address, address+1, ...`. -/
def rampDevice : RegType → Int → Nat → ReadOutcome :=
  fun _ a k => .ok (rampVals a k)

def okWorld : World := ⟨fun _ => .ok true, 0, rampDevice, fun _ => .ok, 0⟩

def noConnWorld : World := { okWorld with connectR := fun _ => .ok false }

def illegalWorld : World := { okWorld with device := fun _ _ _ => .errorResp "IllegalAddress" }

/-- Poll entries used by the C6 witness. -/
def samplePollEntry : PollEntry := ⟨0, .holding, 0, 1, some [5], none⟩

def samplePollEntry' : PollEntry := ⟨1, .holding, 0, 1, none, some "boom"⟩

/-- The sequence of (address, size) sub-requests that the chunk loop issues
for a read of `n` items starting at `address` with per-request limit
`maxA`: `ceil(n / maxA)` requests at consecutive addresses in steps of
`maxA`, each of size `maxA` except a smaller final remainder. -/
def chunkReqs (address : Int) (n maxA : Nat) : List (Int × Nat) :=
  (List.range ((n + maxA - 1) / maxA)).map
    (fun i => (address + ((i * maxA : Nat) : Int), min (n - i * maxA) maxA))

/-- The I/O trace of the chunk loop over a request plan: one register read
per sub-request, with the inter-request delay slept between consecutive
sub-requests (but not after the last). -/
def reqEvents (t : RegType) (d : ℚ) : List (Int × Nat) → List IOEvent
  | [] => []
  | [p] => [.tRead t p.1 p.2]
  | p :: q :: rest => .tRead t p.1 p.2 :: .tSleep d :: reqEvents t d (q :: rest)

/-- A device that answers address 12 with a single item and every other
request in full. -/
def shortWorld : World :=
  { okWorld with device := fun _ a k => if a = 12 then .ok [99] else .ok (rampVals a k) }

/-- Did the probe at address `a` succeed (no exception from the single-unit
read)? -/
def probeOk (c : Conn) (w : World) (t : RegType) (a : Int) : Bool :=
  (ModbusConnection.probeAddress c w t a).1

/-- The candidate addresses the probe loop actually reads, in order: the
non-negative candidates up to and including the first successful one (all
of them when none succeeds). -/
def processedProbes (c : Conn) (w : World) (t : RegType) (l : List Int) : List Int :=
  let fl := l.filter (fun a => decide (0 ≤ a))
  match fl.find? (probeOk c w t) with
  | some a => fl.takeWhile (fun x => !(probeOk c w t x)) ++ [a]
  | none => fl

/-- A device that reports an illegal address at 3, fails the probe at 4,
and answers everywhere else. -/
def probeDevice (_t : RegType) (a : Int) (k : Nat) : ReadOutcome :=
  if a = 3 then .errorResp "Exception Response(131, 3, IllegalAddress)"
  else if a = 4 then .errorResp "IllegalAddress"
  else .ok (rampVals a k)

def probeWorld : World := { okWorld with device := probeDevice }

theorem rampVals_length (a : Int) (k : Nat) : (rampVals a k).length = k := by
  rw [rampVals, List.length_map, List.length_range]

/-- Acquiring and then releasing the lock restores the connection state. -/
theorem relock_unlock (c : Conn) (h : c.locked = false) :
    ({ { c with locked := true } with locked := false } : Conn) = c := by
  cases c
  simp_all

/-- `read` with `try_alternatives=False` never reaches the probe branch:
it is exactly the lock-gated plain read `readNested`. In particular the
nested call of line 202 runs the same code path as a top-level
`try_alternatives=False` read - except that at line 202 the lock is held. -/
theorem read_noalt (c : Conn) (w : World) (t : RegType) (address count : Int)
    (mpr : Option Int) (rng : Nat) :
    ModbusConnection.read c w t address count mpr false rng =
      ModbusConnection.readNested c w t address count mpr := by
  by_cases hl : c.locked
  · simp [ModbusConnection.read, ModbusConnection.readNested, hl]
  · simp only [ModbusConnection.read, ModbusConnection.readNested,
      ModbusConnection.readBody, ModbusConnection.readPlain, hl, Bool.false_eq_true,
      if_false]
    rcases hp : ModbusConnection.readPre { c with locked := true } w address count
      with ⟨r, c1, w1, ev⟩
    cases r with
    | error e => rfl
    | ok u =>
      rcases ht : ModbusConnection.readTry c1 w1 t address count mpr with ⟨r2, c2, ev2⟩
      cases r2 with
      | ok vs => simp [ht]
      | error e => cases e <;> simp [ht]

/-- C10: a read called with a negative address or a non-positive count raises
`ValueError` straight away: the connection state (the lock acquired at entry
is released again) and the world are returned untouched and the event list
is empty, so no connect attempt and no socket I/O happens, and `connected`,
`last_read` and `poll_history` keep their values. -/
theorem c10_read_validation (c : Conn) (w : World) (t : RegType) (address count : Int)
    (mpr : Option Int) (alt : Bool) (rng : Nat)
    (hl : c.locked = false) (h : address < 0 ∨ count ≤ 0) :
    ModbusConnection.read c w t address count mpr alt rng =
      (.exn (.valueError (if address < 0 then "address must be a non-negative integer"
        else "count must be >= 1")), c, w, []) := by
  have hcc := relock_unlock c hl
  by_cases h0 : address < 0
  · simp [ModbusConnection.read, ModbusConnection.readBody, ModbusConnection.readPre,
      h0, hl, hcc]
  · rcases h with h | h
    · exact absurd h h0
    · simp [ModbusConnection.read, ModbusConnection.readBody, ModbusConnection.readPre,
        h0, h, hl, hcc]

/-- Witness for C10 at `address = -1`. -/
theorem c10_read_validation_witness :
    (sampleConn.locked = false ∧ ((-1 : Int) < 0 ∨ (1 : Int) ≤ 0)) ∧
      ModbusConnection.read sampleConn okWorld .holding (-1) 1 none false 5 =
        (.exn (.valueError "address must be a non-negative integer"),
          sampleConn, okWorld, []) := by
  refine ⟨⟨rfl, Or.inl (by decide)⟩, ?_⟩
  have h := c10_read_validation sampleConn okWorld .holding (-1) 1 none false 5
    rfl (Or.inl (by decide))
  simpa using h

/-- C6: the poll-history step keeps `len(poll_history) ≤ max_history`,
appends new entries at the end (chronological order), and when an append
would exceed `max_history` it evicts exactly the oldest entry (FIFO). -/
theorem c6_poll_history_fifo (h : List PollEntry) (e : PollEntry) (maxH : Nat) :
    (h.length ≤ maxH → (ModbusConnection.pollHistoryStep h e maxH).length ≤ maxH) ∧
    (h.length < maxH → ModbusConnection.pollHistoryStep h e maxH = h ++ [e]) ∧
    (h.length = maxH → 0 < maxH →
      ModbusConnection.pollHistoryStep h e maxH = h.tail ++ [e]) := by
  have hstep : ModbusConnection.pollHistoryStep h e maxH =
      if maxH < h.length + 1 then (h ++ [e]).drop 1 else h ++ [e] := by
    simp [ModbusConnection.pollHistoryStep]
  refine ⟨?_, ?_, ?_⟩
  · intro hle
    rw [hstep]
    by_cases hc : maxH < h.length + 1
    · rw [if_pos hc]
      simp only [List.length_drop, List.length_append, List.length_singleton]
      omega
    · rw [if_neg hc]
      simp only [List.length_append, List.length_singleton]
      omega
  · intro hlt
    rw [hstep, if_neg (by omega)]
  · intro heq hpos
    rw [hstep, if_pos (by omega)]
    cases h with
    | nil => simp at heq; omega
    | cons x xs => simp

/-- Witness for C6 with `max_history = 1`: a second append evicts the first
entry. -/
theorem c6_poll_history_fifo_witness :
    ([samplePollEntry].length = 1 ∧ 0 < 1) ∧
      ModbusConnection.pollHistoryStep [samplePollEntry] samplePollEntry' 1 = [samplePollEntry'] ∧
      (ModbusConnection.pollHistoryStep [samplePollEntry] samplePollEntry' 1).length ≤ 1 := by
  refine ⟨⟨rfl, Nat.one_pos⟩, ?_, ?_⟩
  · have h := (c6_poll_history_fifo [samplePollEntry] samplePollEntry' 1).2.2 rfl Nat.one_pos
    simpa using h
  · exact (c6_poll_history_fifo [samplePollEntry] samplePollEntry' 1).1 (by decide)

/-- When the connection is marked connected with a live client and the
health-check transport connect reports success, `_ensure_connected` returns
`True` without touching the connection state. -/
theorem ensureConnected_ok (c : Conn) (w : World) (cl : Client)
    (hconn : c.connected = true) (hcl : c.client = some cl)
    (hcr : w.connectR w.nConnect = .ok true) :
    ModbusConnection.ensureConnected c w =
      (.ok true, c, { w with nConnect := w.nConnect + 1 }, [.tConnect c.host c.port]) := by
  simp [ModbusConnection.ensureConnected, ModbusConnection.clientConnect, hconn, hcl, hcr]

/-- When the connection is disconnected and the transport connect fails,
`_ensure_connected` falls back to `connect()`, which replaces the client
and reports `False`. -/
theorem ensureConnected_down_fail (c : Conn) (w : World) (cl : Client)
    (hdis : c.connected = false) (hcl : c.client = some cl)
    (hfail : w.connectR w.nConnect = .ok false) :
    ModbusConnection.ensureConnected c w =
      (.ok false, { c with client := some ⟨c.host, c.port, some 5⟩, connected := false },
        { w with nConnect := w.nConnect + 1 }, [.tClose, .tConnect c.host c.port]) := by
  simp [ModbusConnection.ensureConnected, ModbusConnection.connect,
    ModbusConnection.clientConnect, hdis, hcl, hfail]

/-- C2 counterexample: the source `read` has no `allow_reconnect` parameter
and a read on a disconnected connection is never rejected without I/O:
here a disconnected connection performs a transport connect attempt
(`countP isConnectEv = 1`, i.e. socket I/O happens) and then fails with
`ConnectionError`, contradicting "fails with ConnectionClosed and performs
no socket I/O". -/
theorem c2_read_disconnected_counterexample :
    (ModbusConnection.read sampleConnDown noConnWorld .holding 0 1 none false 5).1 =
      .exn (.connectionError "Unable to connect to 10.0.0.1:502") ∧
    ((ModbusConnection.read sampleConnDown noConnWorld .holding 0 1
      none false 5).2.2.2.countP isConnectEv = 1) := by
  decide

/-- C2 amended: `read` on a disconnected connection always attempts exactly
one reconnect (transport I/O: one close plus one connect event); if the
reconnect fails it raises `ConnectionError` before any register I/O, and
the connection stays disconnected. After `close()`, `connected = false`. -/
theorem c2_read_disconnected_reconnects (c : Conn) (w : World) (cl : Client)
    (t : RegType) (address count : Int) (mpr : Option Int) (alt : Bool) (rng : Nat)
    (hl : c.locked = false)
    (hdis : c.connected = false) (hcl : c.client = some cl)
    (haddr : 0 ≤ address) (hcnt : 1 ≤ count)
    (hfail : w.connectR w.nConnect = .ok false) :
    (∀ c2 w2, ((ModbusConnection.close c2 w2).1).connected = false) ∧
    (ModbusConnection.read c w t address count mpr alt rng).1 =
      .exn (.connectionError ("Unable to connect to " ++ c.host ++ ":" ++
        toString c.port)) ∧
    (ModbusConnection.read c w t address count mpr alt rng).2.2.2 =
      [.tClose, .tConnect c.host c.port] ∧
    ((ModbusConnection.read c w t address count mpr alt rng).2.1).connected = false := by
  have hens := ensureConnected_down_fail { c with locked := true } w cl hdis hcl hfail
  have hpre : ModbusConnection.readPre { c with locked := true } w address count =
      (.error (.connectionError ("Unable to connect to " ++ c.host ++ ":" ++
        toString c.port)),
        { { c with locked := true } with
          client := some ⟨c.host, c.port, some 5⟩, connected := false },
        { w with nConnect := w.nConnect + 1 }, [.tClose, .tConnect c.host c.port]) := by
    unfold ModbusConnection.readPre
    rw [if_neg (by omega), if_neg (by omega), hens]
  refine ⟨?_, ?_⟩
  · intro c2 w2
    unfold ModbusConnection.close
    cases hc2 : c2.client <;> simp
  · simp [ModbusConnection.read, ModbusConnection.readBody, hl, hpre]

/-- Witness for the amended C2. -/
theorem c2_read_disconnected_reconnects_witness :
    (sampleConnDown.locked = false ∧ sampleConnDown.connected = false ∧
      sampleConnDown.client = some sampleClient ∧
      (0 : Int) ≤ 0 ∧ (1 : Int) ≤ 1 ∧ noConnWorld.connectR 0 = .ok false) ∧
    ((ModbusConnection.read sampleConnDown noConnWorld .holding 0 1 none false 5).2.2.2 =
      [.tClose, .tConnect "10.0.0.1" 502]) := by
  refine ⟨⟨rfl, rfl, rfl, by decide, by decide, rfl⟩, ?_⟩
  have h := c2_read_disconnected_reconnects sampleConnDown noConnWorld sampleClient
    .holding 0 1 none false 5 rfl rfl rfl (by decide) (by decide) rfl
  simpa using h.2.2.1

/-- C8 counterexample: after a failed connect the handle is a fresh
(unconnected) client object, not null, contradicting "state is exactly
(handle = null, connected = false)". -/
theorem c8_connect_failure_counterexample :
    (ModbusConnection.connect sampleConnDown noConnWorld 5).1 = false ∧
    ((ModbusConnection.connect sampleConnDown noConnWorld 5).2.1).connected = false ∧
    ((ModbusConnection.connect sampleConnDown noConnWorld 5).2.1).client ≠ none := by
  decide

/-- C8 amended: `connect` never raises (it totalises every transport outcome
into the returned boolean, which always equals the stored `connected`
flag); when the transport attempt does not succeed, it returns `False`
with `connected = false`, and the handle is the freshly created client
object for this call's timeout - not null. -/
theorem c8_connect_failure_state (c : Conn) (w : World) (timeout : ℚ) (cl : Client)
    (hcl : c.client = some cl) :
    ((ModbusConnection.connect c w timeout).1 =
      ((ModbusConnection.connect c w timeout).2.1).connected) ∧
    (w.connectR w.nConnect ≠ .ok true →
      (ModbusConnection.connect c w timeout).1 = false ∧
      ((ModbusConnection.connect c w timeout).2.1).connected = false ∧
      ((ModbusConnection.connect c w timeout).2.1).client =
        some ⟨c.host, c.port, some timeout⟩) := by
  rcases hr : w.connectR w.nConnect with e | b
  · simp [ModbusConnection.connect, ModbusConnection.clientConnect, hcl, hr]
  · cases b
    · simp [ModbusConnection.connect, ModbusConnection.clientConnect, hcl, hr]
    · simp [ModbusConnection.connect, ModbusConnection.clientConnect, hcl, hr]

/-- Witness for the amended C8. -/
theorem c8_connect_failure_state_witness :
    (sampleConnDown.client = some sampleClient ∧
      noConnWorld.connectR 0 ≠ .ok true) ∧
    ((ModbusConnection.connect sampleConnDown noConnWorld 5).1 = false ∧
      ((ModbusConnection.connect sampleConnDown noConnWorld 5).2.1).client =
        some ⟨"10.0.0.1", 502, some 5⟩) := by
  refine ⟨⟨rfl, by decide⟩, ?_⟩
  have h := (c8_connect_failure_state sampleConnDown noConnWorld 5 sampleClient rfl).2
    (by decide)
  exact ⟨h.1, h.2.2⟩

/-- C9 counterexample: a bare scalar value is not accepted by `write`:
`len(values)` raises `TypeError`, no write operation is dispatched, and
the connection is (spuriously) marked dead by the catch-all handler. -/
theorem c9_write_scalar_counterexample :
    (ModbusConnection.write sampleConn okWorld .holding 0 (.pyInt 7)).1 =
      .error (.typeError "object of type 'int' has no len()") ∧
    ((ModbusConnection.write sampleConn okWorld .holding 0
      (.pyInt 7)).2.2.2.countP isWriteEv = 0) ∧
    ((ModbusConnection.write sampleConn okWorld .holding 0 (.pyInt 7)).2.1).connected =
      false := by
  decide

/-- C9 amended: `write` accepts an ordered sequence of values; a length-1
sequence is dispatched to the single-register (`write_register`) or
single-coil (`write_coil`) operation, and any other length to the
multi-register (`write_registers`) or multi-coil (`write_coils`) operation,
for both `holding` and `coils`; a bare scalar makes `len(values)` raise
`TypeError` instead of being accepted. -/
theorem c9_write_dispatch (c : Conn) (w : World) (cl : Client) (address : Int)
    (vs : List Int) (k : Int)
    (hconn : c.connected = true) (hcl : c.client = some cl)
    (hcr : w.connectR w.nConnect = .ok true) :
    (vs.length = 1 →
      (ModbusConnection.write c w .holding address (.pyList vs)).2.2.2.filter isWriteEv =
        [.tWrite (.singleReg address vs.headI)] ∧
      (ModbusConnection.write c w .coils address (.pyList vs)).2.2.2.filter isWriteEv =
        [.tWrite (.singleCoil address (vs.headI != 0))]) ∧
    (vs.length ≠ 1 →
      (ModbusConnection.write c w .holding address (.pyList vs)).2.2.2.filter isWriteEv =
        [.tWrite (.multiReg address vs)] ∧
      (ModbusConnection.write c w .coils address (.pyList vs)).2.2.2.filter isWriteEv =
        [.tWrite (.multiCoil address (vs.map (fun v => v != 0)))]) ∧
    (ModbusConnection.write c w .holding address (.pyInt k)).1 =
      .error (.typeError "object of type 'int' has no len()") := by
  have hens := ensureConnected_ok c w cl hconn hcl hcr
  refine ⟨?_, ?_, ?_⟩
  · intro h1
    obtain ⟨v, rfl⟩ := List.length_eq_one.mp h1
    constructor
    · cases hwd : w.writeDev (.singleReg address v) <;>
        simp [ModbusConnection.write, hens, ModbusConnection.clientWrite, hwd, isWriteEv]
    · cases hwd : w.writeDev (.singleCoil address (v != 0)) <;>
        simp [ModbusConnection.write, hens, ModbusConnection.clientWrite, hwd, isWriteEv]
  · intro h1
    constructor
    · cases hwd : w.writeDev (.multiReg address vs) <;>
        simp [ModbusConnection.write, hens, ModbusConnection.clientWrite, hwd, isWriteEv,
          h1]
    · cases hwd : w.writeDev (.multiCoil address (vs.map (fun v => v != 0))) <;>
        simp [ModbusConnection.write, hens, ModbusConnection.clientWrite, hwd, isWriteEv,
          h1]
  · simp [ModbusConnection.write, hens]

/-- Witness for the amended C9: a two-value holding write dispatches the
multi-register operation. -/
theorem c9_write_dispatch_witness :
    (sampleConn.connected = true ∧ sampleConn.client = some sampleClient ∧
      okWorld.connectR 0 = .ok true ∧ ([3, 4] : List Int).length ≠ 1) ∧
    (ModbusConnection.write sampleConn okWorld .holding 9 (.pyList [3, 4])).2.2.2.filter
      isWriteEv = [.tWrite (.multiReg 9 [3, 4])] := by
  refine ⟨⟨rfl, rfl, rfl, by decide⟩, ?_⟩
  have h := (c9_write_dispatch sampleConn okWorld sampleClient 9 [3, 4] 0
    rfl rfl rfl).2.1 (by decide)
  exact h.1

/-- With no client object, every iteration of the retry loop fails without
any transport connect event, and the trace contains no waits attached to
attempts. -/
theorem autoLoop_trace_none (b : ℚ) :
    ∀ (n attempt : Nat) (c : Conn) (w : World) (acc : List ℚ),
    c.client = none →
    ((autoLoop b n attempt c w).2.2.2).countP isConnectEv = 0 ∧
    waitsBefore ((autoLoop b n attempt c w).2.2.2) acc = [] := by
  intro n
  induction n with
  | zero => intro attempt c w acc hcl; simp [autoLoop, waitsBefore]
  | succ n ih =>
    intro attempt c w acc hcl
    have hconn : ModbusConnection.connect c w 5 =
        (false, { c with connected := false }, w, []) := by
      simp [ModbusConnection.connect, hcl]
    have hcl' : ({ c with connected := false } : Conn).client = none := hcl
    have h := ih (attempt + 1) { c with connected := false } w (acc ++ [b * ((attempt : ℚ) + 1)]) hcl'
    simp only [autoLoop, hconn]
    simp only [Bool.false_eq_true, if_false, List.nil_append]
    constructor
    · simp only [List.countP_cons, isConnectEv]
      simpa using h.1
    · simpa [waitsBefore] using h.2

/-- Step equations for `waitsBefore`, used to walk traces. -/
theorem waitsBefore_nil (acc : List ℚ) : waitsBefore [] acc = [] := rfl

theorem waitsBefore_close (rest : List IOEvent) (acc : List ℚ) :
    waitsBefore (.tClose :: rest) acc = waitsBefore rest acc := rfl

theorem waitsBefore_connect (h : String) (p : Int) (rest : List IOEvent) (acc : List ℚ) :
    waitsBefore (.tConnect h p :: rest) acc = acc :: waitsBefore rest [] := rfl

theorem waitsBefore_sleep (q : ℚ) (rest : List IOEvent) (acc : List ℚ) :
    waitsBefore (.tSleep q :: rest) acc = waitsBefore rest (acc ++ [q]) := rfl

/-- With a live client object, each iteration of the retry loop performs
exactly one transport connect attempt (preceded by a close); the loop makes
at most `n` attempts, and the wait recorded before attempt `attempt + k + 1`
is `b * (attempt + k)`. -/
theorem autoLoop_trace_some (b : ℚ) :
    ∀ (n attempt : Nat) (c : Conn) (w : World) (acc : List ℚ) (cl : Client),
    c.client = some cl →
    ((autoLoop b n attempt c w).2.2.2).countP isConnectEv ≤ n ∧
    waitsBefore ((autoLoop b n attempt c w).2.2.2) acc =
      (List.range (((autoLoop b n attempt c w).2.2.2).countP isConnectEv)).map
        (fun k : Nat => if k = 0 then acc else [b * ((attempt : ℚ) + (k : ℚ))]) := by
  intro n
  induction n with
  | zero => intro attempt c w acc cl hcl; simp [autoLoop, waitsBefore]
  | succ n ih =>
    intro attempt c w acc cl hcl
    have key : ModbusConnection.connect c w 5 =
        (false, { c with client := some ⟨c.host, c.port, some 5⟩, connected := false },
          { w with nConnect := w.nConnect + 1 },
          [.tClose, .tConnect c.host c.port]) →
        ((autoLoop b (n + 1) attempt c w).2.2.2).countP isConnectEv ≤ n + 1 ∧
        waitsBefore ((autoLoop b (n + 1) attempt c w).2.2.2) acc =
          (List.range (((autoLoop b (n + 1) attempt c w).2.2.2).countP isConnectEv)).map
            (fun k : Nat => if k = 0 then acc else [b * ((attempt : ℚ) + (k : ℚ))]) := by
      intro hconn
      have h := ih (attempt + 1)
        { c with client := some ⟨c.host, c.port, some 5⟩, connected := false }
        { w with nConnect := w.nConnect + 1 }
        [b * ((attempt + 1 : Nat) : ℚ)] ⟨c.host, c.port, some 5⟩ rfl
      have hev : (autoLoop b (n + 1) attempt c w).2.2.2 =
          .tClose :: .tConnect c.host c.port :: .tSleep (b * ((attempt + 1 : Nat) : ℚ)) ::
            (autoLoop b n (attempt + 1)
              { c with client := some ⟨c.host, c.port, some 5⟩, connected := false }
              { w with nConnect := w.nConnect + 1 }).2.2.2 := by
        simp only [autoLoop, hconn, Bool.false_eq_true, if_false, List.cons_append,
          List.nil_append]
      have hcount : ((autoLoop b (n + 1) attempt c w).2.2.2).countP isConnectEv =
          ((autoLoop b n (attempt + 1)
            { c with client := some ⟨c.host, c.port, some 5⟩, connected := false }
            { w with nConnect := w.nConnect + 1 }).2.2.2).countP isConnectEv + 1 := by
        rw [hev]
        simp [List.countP_cons, isConnectEv]
      constructor
      · rw [hcount]
        exact Nat.add_le_add_right h.1 1
      · rw [hcount, hev, waitsBefore_close, waitsBefore_connect, waitsBefore_sleep,
          List.nil_append, h.2, List.range_succ_eq_map, List.map_cons,
          List.map_map]
        rw [if_pos rfl]
        congr 1
        apply List.map_congr_left
        intro k _
        simp only [Function.comp_apply, Nat.succ_ne_zero, if_false]
        rcases k with - | k
        · simp
        · have hk : k + 1 ≠ 0 := Nat.succ_ne_zero k
          simp only [hk, if_false]
          push_cast
          ring_nf
    rcases hr : w.connectR w.nConnect with e | bo
    · exact key (by simp [ModbusConnection.connect, ModbusConnection.clientConnect, hcl, hr])
    · cases bo
      · exact key (by simp [ModbusConnection.connect, ModbusConnection.clientConnect, hcl, hr])
      · have hconn : ModbusConnection.connect c w 5 =
            (true, { c with client := some ⟨c.host, c.port, some 5⟩, connected := true },
              { w with nConnect := w.nConnect + 1 },
              [.tClose, .tConnect c.host c.port]) := by
          simp [ModbusConnection.connect, ModbusConnection.clientConnect, hcl, hr]
        have hev : (autoLoop b (n + 1) attempt c w).2.2.2 =
            [.tClose, .tConnect c.host c.port] := by
          simp only [autoLoop, hconn, if_true]
        rw [hev]
        constructor
        · simp [List.countP_cons, isConnectEv]
        · rw [waitsBefore_close, waitsBefore_connect, waitsBefore_nil]
          simp [List.countP_cons, isConnectEv, List.range_succ_eq_map]

/-- C1: the auto-connect retry loop configured for `N + 1` attempts (the
source hard-codes `max_attempts = 5` and `backoff_base = 0.5` in
`appAutoConnect`, so `retries = N = 4`) performs at most `N + 1` transport
connect attempts, and the wait performed immediately before attempt `k + 1`
is exactly `b * k` (linear backoff): entry `k` of `waitsBefore` lists the
sleeps preceding attempt `k + 1`, which is `[]` before the first attempt
and `[b * k]` before each retry. Each loop iteration calls
`ModbusConnection.connect`, which issues exactly one transport connect. -/
theorem c1_connect_retry_backoff (b : ℚ) (N : Nat) (c : Conn) (w : World) :
    ((autoConnect b (N + 1) c w).2.2.2).countP isConnectEv ≤ N + 1 ∧
    waitsBefore ((autoConnect b (N + 1) c w).2.2.2) [] =
      (List.range (((autoConnect b (N + 1) c w).2.2.2).countP isConnectEv)).map
        (fun k : Nat => if k = 0 then [] else [b * (k : ℚ)]) := by
  unfold autoConnect
  cases hcl : c.client with
  | none =>
    have h := autoLoop_trace_none b (N + 1) 0 c w [] hcl
    rw [h.2, h.1]
    exact ⟨by omega, by simp⟩
  | some cl =>
    have h := autoLoop_trace_some b (N + 1) 0 c w [] cl hcl
    refine ⟨h.1, ?_⟩
    rw [h.2]
    apply List.map_congr_left
    intro k _
    rcases k with - | k
    · simp
    · simp [Nat.succ_ne_zero]

/-- A device `ok` answer makes `_single_read` return the transformed values. -/
theorem singleRead_ok (c : Conn) (w : World) (t : RegType) (a : Int) (k : Nat)
    (vs : List Int) (h : w.device t a k = .ok vs) :
    ModbusConnection.singleRead c w t a k =
      (.ok (ModbusConnection.singleReadVals t vs k), [.tRead t a k]) := by
  simp [ModbusConnection.singleRead, h]

/-- Length of the `_single_read` result when the device answers with at
most the requested number of items. -/
theorem singleReadVals_length (t : RegType) (vs : List Int) (k : Nat)
    (h : vs.length ≤ k) : (ModbusConnection.singleReadVals t vs k).length = vs.length := by
  cases t <;> simp [ModbusConnection.singleReadVals] <;> omega

theorem chunkReqs_singleton (a : Int) (n maxA : Nat) (hn : 0 < n) (hnm : n ≤ maxA) :
    chunkReqs a n maxA = [(a, n)] := by
  have hq : (n + maxA - 1) / maxA = 1 := Nat.div_eq_of_lt_le (by omega) (by omega)
  rw [chunkReqs, hq]
  simp only [List.range_succ, List.range_zero, List.nil_append, List.map_cons, List.map_nil]
  refine congrArg (fun x => [x]) ?_
  refine Prod.ext ?_ ?_
  · simp
  · simp only [Nat.zero_mul, Nat.sub_zero]
    omega

theorem chunkReqs_cons (a : Int) (n maxA : Nat) (hm : 0 < maxA) (hgt : maxA < n) :
    chunkReqs a n maxA = (a, maxA) :: chunkReqs (a + (maxA : Int)) (n - maxA) maxA := by
  have h1 : n + maxA - 1 = ((n - maxA) + maxA - 1) + maxA := by omega
  have hq : (n + maxA - 1) / maxA = ((n - maxA) + maxA - 1) / maxA + 1 := by
    rw [h1, Nat.add_div_right _ hm]
  unfold chunkReqs
  rw [hq, List.range_succ_eq_map, List.map_cons, List.map_map]
  refine congrArg₂ (· :: ·) ?_ ?_
  · refine Prod.ext ?_ ?_
    · simp
    · simp only [Nat.zero_mul, Nat.sub_zero]
      omega
  · apply List.map_congr_left
    intro i _
    have hmul : (i + 1) * maxA = i * maxA + maxA := by ring
    refine Prod.ext ?_ ?_
    · simp only [Function.comp_apply]
      push_cast [hmul]
      ring
    · simp only [Function.comp_apply, Nat.succ_mul]
      omega

theorem chunkReqs_length (a : Int) (n maxA : Nat) :
    (chunkReqs a n maxA).length = (n + maxA - 1) / maxA := by
  simp [chunkReqs]

theorem chunkReqs_ne_nil (a : Int) (n maxA : Nat) (hm : 0 < maxA) (hn : 0 < n) :
    chunkReqs a n maxA ≠ [] := by
  have h : 1 ≤ (n + maxA - 1) / maxA := (Nat.one_le_div_iff hm).mpr (by omega)
  intro hcontra
  have := chunkReqs_length a n maxA
  rw [hcontra] at this
  simp at this
  omega

theorem chunkReqs_sum (maxA : Nat) (hm : 0 < maxA) :
    ∀ n, ∀ a : Int, ((chunkReqs a n maxA).map (fun p => p.2)).sum = n := by
  intro n
  induction n using Nat.strong_induction_on with
  | _ n ih =>
    intro a
    rcases Nat.eq_zero_or_pos n with h0 | hpos
    · subst h0
      have hq : (maxA - 1) / maxA = 0 := Nat.div_eq_of_lt (by omega)
      simp [chunkReqs, hq]
    · by_cases hle : n ≤ maxA
      · rw [chunkReqs_singleton a n maxA hpos hle]
        simp
      · rw [chunkReqs_cons a n maxA hm (by omega)]
        simp only [List.map_cons, List.sum_cons]
        rw [ih (n - maxA) (by omega) (a + (maxA : Int))]
        omega

theorem chunkReqs_pairwise (a : Int) (n maxA : Nat) (hm : 0 < maxA) :
    (chunkReqs a n maxA).Pairwise (fun p q => p.1 < q.1) := by
  unfold chunkReqs
  rw [List.pairwise_map]
  refine (List.pairwise_lt_range _).imp ?_
  intro i j hij
  have h1 : i * maxA < j * maxA := (Nat.mul_lt_mul_right hm).mpr hij
  have h2 : ((i * maxA : Nat) : Int) < ((j * maxA : Nat) : Int) := by exact_mod_cast h1
  omega

theorem reqEvents_filter (t : RegType) (d : ℚ) :
    ∀ l, (reqEvents t d l).filter isReadEv = l.map (fun p => IOEvent.tRead t p.1 p.2) := by
  intro l
  induction l with
  | nil => rfl
  | cons p rest ih =>
    cases rest with
    | nil => simp [reqEvents, isReadEv, List.filter]
    | cons q rest2 =>
      rw [reqEvents]
      simp [List.filter_cons, isReadEv, ih]

/-- When the device answers every sub-request with exactly the requested
number of items, the chunk loop walks the whole `chunkReqs` plan: it
returns the concatenation of the per-chunk results in plan order, and its
I/O trace is the plan's reads separated by inter-request sleeps. -/
theorem chunkLoop_full (c : Conn) (w : World) (t : RegType) (address : Int)
    (maxA : Nat) (f : Int → Nat → List Int)
    (hf : ∀ a k, w.device t a k = .ok (f a k))
    (hlen : ∀ a k, (f a k).length = k)
    (hm : 0 < maxA) :
    ∀ fuel n acc (off : Nat), 0 < n → n ≤ fuel →
    ModbusConnection.chunkLoop c w t address maxA fuel acc n off =
      (.ok (acc ++ ((chunkReqs (address + (off : Int)) n maxA).map
        (fun p => ModbusConnection.singleReadVals t (f p.1 p.2) p.2)).flatten),
       reqEvents t c.interRequestDelay (chunkReqs (address + (off : Int)) n maxA)) := by
  intro fuel
  induction fuel with
  | zero => intro n acc off hn hfuel; omega
  | succ fuel ih =>
    intro n acc off hn hfuel
    have hne : ¬ n = 0 := by omega
    by_cases hle : n ≤ maxA
    · have hsr := singleRead_ok c w t (address + (off : Int)) n
        (f (address + (off : Int)) n) (hf _ _)
      have hplen : (ModbusConnection.singleReadVals t (f (address + (off : Int)) n)
          n).length = n := by
        rw [singleReadVals_length t _ n (le_of_eq (hlen _ _))]
        exact hlen _ _
      simp only [ModbusConnection.chunkLoop, hne, if_false, hle, if_true, hsr, hplen,
        lt_self_iff_false, Nat.sub_self, eq_self_iff_true]
      rw [chunkReqs_singleton (address + (off : Int)) n maxA hn hle]
      simp [reqEvents]
    · have hgt : maxA < n := by omega
      have hsr := singleRead_ok c w t (address + (off : Int)) maxA
        (f (address + (off : Int)) maxA) (hf _ _)
      have hplen : (ModbusConnection.singleReadVals t (f (address + (off : Int)) maxA)
          maxA).length = maxA := by
        rw [singleReadVals_length t _ maxA (le_of_eq (hlen _ _))]
        exact hlen _ _
      have hrem : ¬ (n - maxA = 0) := by omega
      have hrec := ih (n - maxA)
        (acc ++ ModbusConnection.singleReadVals t (f (address + (off : Int)) maxA) maxA)
        (off + maxA) (by omega) (by omega)
      simp only [ModbusConnection.chunkLoop, hne, if_false, hle, hrem, hsr, hplen,
        lt_self_iff_false, hrec]
      have haddr : address + ((off + maxA : Nat) : Int) =
          (address + (off : Int)) + (maxA : Int) := by
        push_cast
        ring
      rw [haddr, chunkReqs_cons (address + (off : Int)) n maxA hm hgt]
      obtain ⟨q, r2, hqr⟩ : ∃ q r2, chunkReqs ((address + (off : Int)) + (maxA : Int))
          (n - maxA) maxA = q :: r2 := by
        rcases hne2 : chunkReqs ((address + (off : Int)) + (maxA : Int)) (n - maxA) maxA
          with - | ⟨q, r2⟩
        · exact absurd hne2 (chunkReqs_ne_nil _ _ _ hm (by omega))
        · exact ⟨q, r2, rfl⟩
      rw [hqr]
      simp only [List.map_cons, List.flatten_cons, reqEvents]
      rw [← hqr]
      refine congrArg₂ (·, ·) ?_ ?_
      · rw [List.append_assoc]
      · rfl

/-- C3: with a healthy connection and a device that always returns the full
requested length, a read with `count ≤ max_per_request` issues exactly one
sub-request, and a read with `count > max_per_request` issues exactly
`ceil(count / max_per_request)` sub-requests, at strictly ascending
addresses, returning the concatenation of the sub-results in that order. -/
theorem c3_read_chunking (c : Conn) (w : World) (cl : Client) (t : RegType)
    (address count mA : Int) (alt : Bool) (rng : Nat)
    (f : Int → Nat → List Int)
    (hl : c.locked = false)
    (hconn : c.connected = true) (hcl : c.client = some cl)
    (hcr : w.connectR w.nConnect = .ok true)
    (haddr : 0 ≤ address) (hcnt : 0 < count) (hmA : 0 < mA)
    (hf : ∀ a k, w.device t a k = .ok (f a k))
    (hlen : ∀ a k, (f a k).length = k) :
    (count ≤ mA →
      (ModbusConnection.read c w t address count (some mA) alt rng).2.2.2.filter isReadEv =
        [.tRead t address count.toNat] ∧
      (ModbusConnection.read c w t address count (some mA) alt rng).1 =
        .ok (ModbusConnection.singleReadVals t (f address count.toNat) count.toNat)) ∧
    (mA < count →
      (ModbusConnection.read c w t address count (some mA) alt rng).2.2.2.filter isReadEv =
        (chunkReqs address count.toNat mA.toNat).map (fun p => IOEvent.tRead t p.1 p.2) ∧
      (chunkReqs address count.toNat mA.toNat).length =
        (count.toNat + mA.toNat - 1) / mA.toNat ∧
      (chunkReqs address count.toNat mA.toNat).Pairwise (fun p q => p.1 < q.1) ∧
      (ModbusConnection.read c w t address count (some mA) alt rng).1 =
        .ok (((chunkReqs address count.toNat mA.toNat).map
          (fun p => ModbusConnection.singleReadVals t (f p.1 p.2) p.2)).flatten)) := by
  have hens := ensureConnected_ok { c with locked := true } w cl hconn hcl hcr
  have hpre : ModbusConnection.readPre { c with locked := true } w address count =
      (.ok (), { c with locked := true }, { w with nConnect := w.nConnect + 1 },
        [.tConnect c.host c.port]) := by
    unfold ModbusConnection.readPre
    rw [if_neg (by omega), if_neg (by omega), hens]
  have hnotneg : ¬ (mA ≤ 0) := by omega
  constructor
  · intro hleI
    have hle : count.toNat ≤ mA.toNat := by omega
    have hsr := singleRead_ok { c with locked := true }
      { w with nConnect := w.nConnect + 1 } t address
      count.toNat (f address count.toNat) (hf address count.toNat)
    simp only [ModbusConnection.read, hl, Bool.false_eq_true, if_false,
      ModbusConnection.readBody, hpre, ModbusConnection.readTry, hnotneg,
      hle, if_true, hsr]
    constructor
    · simp [isReadEv]
    · trivial
  · intro hgtI
    have hgtn : mA.toNat < count.toNat := by omega
    have hnle : ¬ (count.toNat ≤ mA.toNat) := by omega
    have hmn : 0 < mA.toNat := by omega
    have hloop := chunkLoop_full { c with locked := true }
      { w with nConnect := w.nConnect + 1 } t address
      mA.toNat f hf hlen hmn count.toNat count.toNat [] 0 (by omega) (le_refl _)
    have haddr0 : address + ((0 : Nat) : Int) = address := by simp
    rw [haddr0] at hloop
    have hjoinlen : (((chunkReqs address count.toNat mA.toNat).map
        (fun p => ModbusConnection.singleReadVals t (f p.1 p.2) p.2)).flatten).length =
        count.toNat := by
      rw [List.length_flatten, List.map_map]
      have hcongr : (chunkReqs address count.toNat mA.toNat).map
          (List.length ∘ fun p => ModbusConnection.singleReadVals t (f p.1 p.2) p.2) =
          (chunkReqs address count.toNat mA.toNat).map (fun p => p.2) := by
        apply List.map_congr_left
        intro p _
        simp only [Function.comp_apply]
        rw [singleReadVals_length t _ _ (le_of_eq (hlen _ _))]
        exact hlen _ _
      rw [hcongr, chunkReqs_sum mA.toNat hmn]
    have htake : (((chunkReqs address count.toNat mA.toNat).map
        (fun p => ModbusConnection.singleReadVals t (f p.1 p.2) p.2)).flatten).take
        count.toNat =
        ((chunkReqs address count.toNat mA.toNat).map
          (fun p => ModbusConnection.singleReadVals t (f p.1 p.2) p.2)).flatten :=
      List.take_of_length_le (le_of_eq hjoinlen)
    simp only [ModbusConnection.read, hl, Bool.false_eq_true, if_false,
      ModbusConnection.readBody, hpre, ModbusConnection.readTry, hnotneg,
      hnle, hloop, List.nil_append, htake]
    refine ⟨?_, chunkReqs_length _ _ _, chunkReqs_pairwise _ _ _ hmn, ?_⟩
    · simp only [List.filter_cons, List.filter_append]
      rw [reqEvents_filter]
      simp [isReadEv]
    · trivial

/-- Witness for C3: `count = 5`, `max_per_request = 2` issues three
sub-requests at addresses 10, 12, 14 and concatenates the results. -/
theorem c3_read_chunking_witness :
    (sampleConn.locked = false ∧ sampleConn.connected = true ∧
      sampleConn.client = some sampleClient ∧
      okWorld.connectR 0 = .ok true ∧ (0 : Int) ≤ 10 ∧ (0 : Int) < 5 ∧ (0 : Int) < 2 ∧
      (2 : Int) < 5) ∧
    (ModbusConnection.read sampleConn okWorld .holding 10 5 (some 2) false 5).2.2.2.filter
      isReadEv =
      [.tRead .holding 10 2, .tRead .holding 12 2, .tRead .holding 14 1] ∧
    (ModbusConnection.read sampleConn okWorld .holding 10 5 (some 2) false 5).1 =
      .ok [10, 11, 12, 13, 14] := by
  refine ⟨⟨rfl, rfl, rfl, rfl, by decide, by decide, by decide, by decide⟩, ?_, ?_⟩
  all_goals
    have h := (c3_read_chunking sampleConn okWorld sampleClient .holding 10 5 2 false 5
      rampVals rfl rfl rfl rfl (by decide) (by decide) (by decide)
      (fun a k => rfl) rampVals_length).2 (by decide)
  · rw [h.1]
    decide
  · rw [h.2.2.2]
    decide

/-- When the device answers the first `j` sub-requests in full and the
`(j+1)`-st with fewer items than requested, the chunk loop stops right
after the short response: it returns the concatenation accumulated so far
without error, and performs no further sub-request. -/
theorem chunkLoop_short (c : Conn) (w : World) (t : RegType) (address : Int)
    (maxA : Nat) (hm : 0 < maxA) (s : List Int) :
    ∀ (j : Nat) (full : Nat → List Int) (fuel n : Nat) (acc : List Int) (off : Nat),
    j * maxA < n → n ≤ fuel →
    (∀ i, i < j → w.device t (address + ((off + i * maxA : Nat) : Int)) maxA =
      .ok (full i)) →
    (∀ i, i < j → (full i).length = maxA) →
    w.device t (address + ((off + j * maxA : Nat) : Int)) (min (n - j * maxA) maxA) =
      .ok s →
    s.length < min (n - j * maxA) maxA →
    ModbusConnection.chunkLoop c w t address maxA fuel acc n off =
      (.ok (acc ++
          ((List.range j).map
            (fun i => ModbusConnection.singleReadVals t (full i) maxA)).flatten ++
          ModbusConnection.singleReadVals t s (min (n - j * maxA) maxA)),
        ((List.range j).map (fun i =>
          [IOEvent.tRead t (address + ((off + i * maxA : Nat) : Int)) maxA,
           IOEvent.tSleep c.interRequestDelay])).flatten ++
          [IOEvent.tRead t (address + ((off + j * maxA : Nat) : Int))
            (min (n - j * maxA) maxA)]) := by
  intro j
  induction j with
  | zero =>
    intro full fuel n acc off hjn hfuel hfull hflen hshort hslen
    rcases fuel with - | fuel
    · omega
    have hoff0 : off + 0 * maxA = off := by omega
    rw [hoff0] at hshort
    have hn0 : n - 0 * maxA = n := by omega
    rw [hn0] at hshort hslen
    have hchunk_eq : (if n ≤ maxA then n else maxA) = min n maxA := Nat.min_def.symm
    have hsr := singleRead_ok c w t (address + (off : Int)) (min n maxA) s hshort
    have hplen : (ModbusConnection.singleReadVals t s (min n maxA)).length = s.length :=
      singleReadVals_length t s _ (le_of_lt hslen)
    have hlt : (ModbusConnection.singleReadVals t s (min n maxA)).length < min n maxA := by
      rw [hplen]
      exact hslen
    have hne : ¬ n = 0 := by omega
    simp only [ModbusConnection.chunkLoop, hne, if_false, hchunk_eq, hsr, hlt, if_true]
    rw [hoff0, hn0]
    simp
  | succ j ih =>
    intro full fuel n acc off hjn hfuel hfull hflen hshort hslen
    have hjmul : (j + 1) * maxA = j * maxA + maxA := by ring
    rw [hjmul] at hjn
    rcases fuel with - | fuel
    · omega
    have hgt : maxA < n := by omega
    have hne : ¬ n = 0 := by omega
    have hnle : ¬ (n ≤ maxA) := by omega
    have h0 := hfull 0 (Nat.succ_pos j)
    have hoff0 : off + 0 * maxA = off := by omega
    rw [hoff0] at h0
    have h0len : (full 0).length = maxA := hflen 0 (Nat.succ_pos j)
    have hsr := singleRead_ok c w t (address + (off : Int)) maxA (full 0) h0
    have hplen : (ModbusConnection.singleReadVals t (full 0) maxA).length = maxA := by
      rw [singleReadVals_length t _ _ (le_of_eq h0len)]
      exact h0len
    have hrem : ¬ (n - maxA = 0) := by omega
    have hfull' : ∀ i, i < j →
        w.device t (address + (((off + maxA) + i * maxA : Nat) : Int)) maxA =
          .ok (full (i + 1)) := by
      intro i hi
      have := hfull (i + 1) (by omega)
      have harg : off + (i + 1) * maxA = (off + maxA) + i * maxA := by
        have : (i + 1) * maxA = i * maxA + maxA := by ring
        omega
      rwa [harg] at this
    have hflen' : ∀ i, i < j → (full (i + 1)).length = maxA := by
      intro i hi
      exact hflen (i + 1) (by omega)
    have hshort' : w.device t (address + (((off + maxA) + j * maxA : Nat) : Int))
        (min ((n - maxA) - j * maxA) maxA) = .ok s := by
      have harg : off + (j + 1) * maxA = (off + maxA) + j * maxA := by
        have : (j + 1) * maxA = j * maxA + maxA := by ring
        omega
      have harg2 : n - (j + 1) * maxA = (n - maxA) - j * maxA := by
        have : (j + 1) * maxA = j * maxA + maxA := by ring
        omega
      rw [harg, harg2] at hshort
      exact hshort
    have hslen' : s.length < min ((n - maxA) - j * maxA) maxA := by
      have harg2 : n - (j + 1) * maxA = (n - maxA) - j * maxA := by
        have : (j + 1) * maxA = j * maxA + maxA := by ring
        omega
      rw [harg2] at hslen
      exact hslen
    have hrec := ih (fun i => full (i + 1)) fuel (n - maxA)
      (acc ++ ModbusConnection.singleReadVals t (full 0) maxA)
      (off + maxA) (by omega) (by omega) hfull' hflen' hshort' hslen'
    simp only [ModbusConnection.chunkLoop, hne, if_false, hnle, hsr, hplen,
      lt_self_iff_false, hrem, hrec]
    have harg : ∀ i : Nat, (off + maxA) + i * maxA = off + (i + 1) * maxA := by
      intro i
      have : (i + 1) * maxA = i * maxA + maxA := by ring
      omega
    have harg2 : (n - maxA) - j * maxA = n - (j + 1) * maxA := by
      have : (j + 1) * maxA = j * maxA + maxA := by ring
      omega
    refine congrArg₂ (·, ·) ?_ ?_
    · refine congrArg Except.ok ?_
      rw [List.range_succ_eq_map, List.map_cons, List.flatten_cons, List.map_map]
      have hmapeq : (List.range j).map
          ((fun i => ModbusConnection.singleReadVals t (full i) maxA) ∘ Nat.succ) =
          (List.range j).map
            (fun i => ModbusConnection.singleReadVals t (full (i + 1)) maxA) := by
        apply List.map_congr_left
        intro i _
        rfl
      rw [hmapeq, harg2]
      simp [List.append_assoc]
    · rw [List.range_succ_eq_map, List.map_cons, List.flatten_cons, List.map_map]
      have hmapeq : (List.range j).map
          ((fun i => [IOEvent.tRead t (address + ((off + i * maxA : Nat) : Int)) maxA,
            IOEvent.tSleep c.interRequestDelay]) ∘ Nat.succ) =
          (List.range j).map (fun i =>
            [IOEvent.tRead t (address + (((off + maxA) + i * maxA : Nat) : Int)) maxA,
             IOEvent.tSleep c.interRequestDelay]) := by
        apply List.map_congr_left
        intro i _
        simp only [Function.comp_apply]
        rw [harg i]
      rw [hmapeq, harg2]
      simp [List.append_assoc, Nat.zero_mul, Nat.add_zero]
      ring

/-- Filtering the chunk loop's read/sleep trace down to the register reads. -/
theorem filter_read_sleep (t : RegType) (d : ℚ) (g : Nat → Int) (k : Nat → Nat) :
    ∀ l : List Nat,
    ((l.map (fun i => [IOEvent.tRead t (g i) (k i), IOEvent.tSleep d])).flatten).filter
      isReadEv = l.map (fun i => IOEvent.tRead t (g i) (k i)) := by
  intro l
  induction l with
  | nil => rfl
  | cons x xs ih => simp [List.filter_cons, isReadEv, ih]

/-- Sum of a map whose values are all equal. -/
theorem sum_map_fixed {α : Type} (v : Nat) :
    ∀ (l : List α) (f : α → Nat), (∀ x ∈ l, f x = v) → (l.map f).sum = l.length * v := by
  intro l
  induction l with
  | nil => intro f h; simp
  | cons x xs ih =>
    intro f h
    simp only [List.map_cons, List.sum_cons, List.length_cons]
    rw [h x (by simp), ih f (fun y hy => h y (by simp [hy]))]
    ring

/-- C7: during a chunked read, if the device answers the first `j`
sub-requests in full and the `(j+1)`-st with fewer items than requested,
the read stops immediately after that sub-request (exactly `j + 1` reads
are issued) and returns the partial concatenation accumulated so far
without raising any error. -/
theorem c7_read_short_response (c : Conn) (w : World) (cl : Client) (t : RegType)
    (address count mA : Int) (alt : Bool) (rng : Nat)
    (j : Nat) (full : Nat → List Int) (s : List Int)
    (hl : c.locked = false)
    (hconn : c.connected = true) (hcl : c.client = some cl)
    (hcr : w.connectR w.nConnect = .ok true)
    (haddr : 0 ≤ address) (hcnt : 0 < count) (hmA : 0 < mA) (hbig : mA < count)
    (hj : j * mA.toNat < count.toNat)
    (hfull : ∀ i, i < j → w.device t (address + ((i * mA.toNat : Nat) : Int)) mA.toNat =
      .ok (full i))
    (hflen : ∀ i, i < j → (full i).length = mA.toNat)
    (hshort : w.device t (address + ((j * mA.toNat : Nat) : Int))
      (min (count.toNat - j * mA.toNat) mA.toNat) = .ok s)
    (hslen : s.length < min (count.toNat - j * mA.toNat) mA.toNat) :
    (ModbusConnection.read c w t address count (some mA) alt rng).1 =
      .ok (((List.range j).map
        (fun i => ModbusConnection.singleReadVals t (full i) mA.toNat)).flatten ++
        ModbusConnection.singleReadVals t s (min (count.toNat - j * mA.toNat) mA.toNat)) ∧
    (ModbusConnection.read c w t address count (some mA) alt rng).2.2.2.filter isReadEv =
      ((List.range j).map (fun i =>
        IOEvent.tRead t (address + ((i * mA.toNat : Nat) : Int)) mA.toNat)) ++
        [IOEvent.tRead t (address + ((j * mA.toNat : Nat) : Int))
          (min (count.toNat - j * mA.toNat) mA.toNat)] := by
  have hens := ensureConnected_ok { c with locked := true } w cl hconn hcl hcr
  have hpre : ModbusConnection.readPre { c with locked := true } w address count =
      (.ok (), { c with locked := true }, { w with nConnect := w.nConnect + 1 },
        [.tConnect c.host c.port]) := by
    unfold ModbusConnection.readPre
    rw [if_neg (by omega), if_neg (by omega), hens]
  have hnotneg : ¬ (mA ≤ 0) := by omega
  have hnle : ¬ (count.toNat ≤ mA.toNat) := by omega
  have hmn : 0 < mA.toNat := by omega
  have hzero : ∀ i : Nat, (0 : Nat) + i * mA.toNat = i * mA.toNat := fun i => by omega
  have hfull0 : ∀ i, i < j →
      w.device t (address + ((0 + i * mA.toNat : Nat) : Int)) mA.toNat = .ok (full i) := by
    intro i hi
    rw [hzero i]
    exact hfull i hi
  have hshort0 : w.device t (address + ((0 + j * mA.toNat : Nat) : Int))
      (min (count.toNat - j * mA.toNat) mA.toNat) = .ok s := by
    rw [hzero j]
    exact hshort
  have hloop := chunkLoop_short { c with locked := true }
    { w with nConnect := w.nConnect + 1 } t address
    mA.toNat hmn s j full count.toNat count.toNat [] 0 hj (le_refl _)
    hfull0 hflen hshort0 hslen
  have hpartlen : (((List.range j).map
      (fun i => ModbusConnection.singleReadVals t (full i) mA.toNat)).flatten ++
      ModbusConnection.singleReadVals t s
        (min (count.toNat - j * mA.toNat) mA.toNat)).length ≤ count.toNat := by
    rw [List.length_append, List.length_flatten, List.map_map]
    rw [sum_map_fixed mA.toNat (List.range j) _ ?_]
    · rw [List.length_range,
        singleReadVals_length t s _ (le_of_lt hslen)]
      omega
    · intro i hi
      simp only [Function.comp_apply]
      rw [singleReadVals_length t _ _ (le_of_eq (hflen i (List.mem_range.mp hi)))]
      exact hflen i (List.mem_range.mp hi)
  have htake := List.take_of_length_le hpartlen
  constructor
  · simp only [ModbusConnection.read, hl, Bool.false_eq_true, if_false,
      ModbusConnection.readBody, hpre, ModbusConnection.readTry, hnotneg,
      hnle, hloop, List.nil_append, hzero, htake]
  · simp only [ModbusConnection.read, hl, Bool.false_eq_true, if_false,
      ModbusConnection.readBody, hpre, ModbusConnection.readTry, hnotneg,
      hnle, hloop, List.nil_append, hzero]
    simp only [List.filter_append, List.filter_cons, isReadEv]
    rw [filter_read_sleep t c.interRequestDelay
      (fun i => address + ((i * mA.toNat : Nat) : Int)) (fun _ => mA.toNat)
      (List.range j)]
    simp [isReadEv]

/-- Witness for C7: `count = 5`, `max_per_request = 2`; the second chunk
(at address 12) returns one item instead of two, so the read stops after
two sub-requests and returns the partial concatenation `[10, 11, 99]`. -/
theorem c7_read_short_response_witness :
    (sampleConn.locked = false ∧ sampleConn.connected = true ∧
      shortWorld.connectR 0 = .ok true ∧ (2 : Int) < 5 ∧
      1 * (2 : Int).toNat < (5 : Int).toNat) ∧
    (ModbusConnection.read sampleConn shortWorld .holding 10 5 (some 2) false 5).1 =
      .ok [10, 11, 99] ∧
    (ModbusConnection.read sampleConn shortWorld .holding 10 5
      (some 2) false 5).2.2.2.filter isReadEv =
      [.tRead .holding 10 2, .tRead .holding 12 2] := by
  refine ⟨⟨rfl, rfl, rfl, by decide, by decide⟩, ?_, ?_⟩
  all_goals
    have h := c7_read_short_response sampleConn shortWorld sampleClient .holding 10 5 2
      false 5 1 (fun _ => rampVals 10 2) [99] rfl rfl rfl rfl (by decide) (by decide)
      (by decide) (by decide) (by decide)
      (by intro i hi; interval_cases i; decide)
      (by intro i hi; interval_cases i; decide)
      (by decide) (by decide)
  · rw [h.1]
    decide
  · rw [h.2]
    decide

/-- C4 counterexample: an illegal-address fault with probing enabled whose
probes all fail is re-raised (with probe context) while `connected` is
still `true` - the fault is surfaced without forcing `connected = false`. -/
theorem c4_probe_exhausted_counterexample :
    (ModbusConnection.read sampleConn illegalWorld .holding 0 1 none true 1).1 =
      .exn (.modbusExc
        ("Modbus Error reading holding registers at 0 (count=1): IllegalAddress" ++
          " (and probe in +/-1 failed)")) ∧
    ((ModbusConnection.read sampleConn illegalWorld .holding 0 1 none true 1).2.1).connected
      = true := by
  decide

/-- A failing `try` body leaves the connection state untouched (the error
branches of `readTry` return the input connection). -/
theorem readTry_error_conn (c : Conn) (w : World) (t : RegType) (a cnt : Int)
    (mpr : Option Int) (e : PyExn)
    (h : (ModbusConnection.readTry c w t a cnt mpr).1 = .error e) :
    (ModbusConnection.readTry c w t a cnt mpr).2.1 = c := by
  simp only [ModbusConnection.readTry] at h ⊢
  repeat' split
  all_goals simp_all

/-- C4 amended: a fault raised by the `try` body of `read` forces
`connected = false` before it propagates, except on one path: when
probing is enabled and the fault is an illegal-address-class
`ModbusIOException` whose probes all fail, the original fault is re-raised
with probe context and the connection state (in particular `connected`) is
left exactly as it was when the fault occurred, only the lock being
released on the way out. -/
theorem c4_read_fault_disconnect (c c1 c2 : Conn) (w w1 : World)
    (ev ev2 : List IOEvent) (t : RegType) (address count : Int) (mpr : Option Int)
    (alt : Bool) (rng : Nat) (e : PyExn)
    (hl : c.locked = false)
    (hpre : ModbusConnection.readPre { c with locked := true } w address count =
      (.ok (), c1, w1, ev))
    (htry : ModbusConnection.readTry c1 w1 t address count mpr = (.error e, c2, ev2)) :
    ((∀ msg, e = .modbusExc msg → (alt && ModbusConnection.isIllegalMsg msg) = false) →
      (ModbusConnection.read c w t address count mpr alt rng).1 = .exn e ∧
      ((ModbusConnection.read c w t address count mpr alt rng).2.1).connected = false) ∧
    (∀ msg, e = .modbusExc msg → (alt && ModbusConnection.isIllegalMsg msg) = true →
      (ModbusConnection.probeLoop c2 w1 t (ModbusConnection.probeCandidates address rng)).1 = none →
      (ModbusConnection.read c w t address count mpr alt rng).1 =
        .exn (.modbusExc (msg ++ " (and probe in +/-" ++ toString rng ++ " failed)")) ∧
      (ModbusConnection.read c w t address count mpr alt rng).2.1 =
        { c2 with locked := false } ∧
      c2 = c1) := by
  have hc2 : c2 = c1 := by
    have h1 : (ModbusConnection.readTry c1 w1 t address count mpr).1 = .error e := by
      rw [htry]
    have h2 := readTry_error_conn c1 w1 t address count mpr e h1
    rw [htry] at h2
    exact h2
  constructor
  · intro hnotill
    cases e with
    | modbusExc msg =>
      have hf := hnotill msg rfl
      simp only [ModbusConnection.read, hl, Bool.false_eq_true, if_false,
        ModbusConnection.readBody, hpre, htry, hf]
      exact ⟨by trivial, by trivial⟩
    | valueError msg =>
      simp only [ModbusConnection.read, hl, Bool.false_eq_true, if_false,
        ModbusConnection.readBody, hpre, htry]
      exact ⟨by trivial, by trivial⟩
    | typeError msg =>
      simp only [ModbusConnection.read, hl, Bool.false_eq_true, if_false,
        ModbusConnection.readBody, hpre, htry]
      exact ⟨by trivial, by trivial⟩
    | connectionError msg =>
      simp only [ModbusConnection.read, hl, Bool.false_eq_true, if_false,
        ModbusConnection.readBody, hpre, htry]
      exact ⟨by trivial, by trivial⟩
  · intro msg hmsg hill hnone
    subst hmsg
    have hpl : ModbusConnection.probeLoop c2 w1 t
        (ModbusConnection.probeCandidates address rng) =
        (none, (ModbusConnection.probeLoop c2 w1 t
          (ModbusConnection.probeCandidates address rng)).2) := by
      rw [← hnone]
    simp only [ModbusConnection.read, hl, Bool.false_eq_true, if_false,
      ModbusConnection.readBody, hpre, htry, hill, if_true]
    rw [hpl]
    exact ⟨rfl, rfl, hc2⟩

/-- Witness for the amended C4, on the probe-exhaustion path. -/
theorem c4_read_fault_disconnect_witness :
    (sampleConn.locked = false ∧
     ModbusConnection.readPre { sampleConn with locked := true } illegalWorld 0 1 =
      (.ok (), { sampleConn with locked := true }, { illegalWorld with nConnect := 1 },
        [.tConnect "10.0.0.1" 502]) ∧
     ModbusConnection.readTry { sampleConn with locked := true }
        { illegalWorld with nConnect := 1 } .holding 0 1 none =
      (.error (.modbusExc
        "Modbus Error reading holding registers at 0 (count=1): IllegalAddress"),
        { sampleConn with locked := true }, [.tRead .holding 0 1])) ∧
    (ModbusConnection.read sampleConn illegalWorld .holding 0 1 none true 1).1 =
      .exn (.modbusExc
        ("Modbus Error reading holding registers at 0 (count=1): IllegalAddress" ++
          " (and probe in +/-" ++ toString 1 ++ " failed)")) ∧
    (ModbusConnection.read sampleConn illegalWorld .holding 0 1 none true 1).2.1 =
      sampleConn := by
  refine ⟨⟨rfl, rfl, rfl⟩, ?_⟩
  have h := (c4_read_fault_disconnect sampleConn { sampleConn with locked := true }
    { sampleConn with locked := true } illegalWorld
    { illegalWorld with nConnect := 1 } [.tConnect "10.0.0.1" 502] [.tRead .holding 0 1]
    .holding 0 1 none true 1
    (.modbusExc "Modbus Error reading holding registers at 0 (count=1): IllegalAddress")
    rfl rfl rfl).2
    "Modbus Error reading holding registers at 0 (count=1): IllegalAddress" rfl
    (by decide) (by decide)
  refine ⟨h.1, ?_⟩
  rw [h.2.1]
  rfl

/-- `_single_read` performs exactly one register request, whatever the
device answers. -/
theorem singleRead_events (c : Conn) (w : World) (t : RegType) (a : Int) (k : Nat) :
    (ModbusConnection.singleRead c w t a k).2 = [.tRead t a k] := by
  unfold ModbusConnection.singleRead
  rcases w.device t a k with - | m | vs | e <;> rfl

/-- A probe is a single-unit read: exactly one register request. -/
theorem probeAddress_events (c : Conn) (w : World) (t : RegType) (a : Int) :
    (ModbusConnection.probeAddress c w t a).2 = [.tRead t a 1] := by
  have hev := singleRead_events c w t a 1
  unfold ModbusConnection.probeAddress
  rcases hsr : ModbusConnection.singleRead c w t a 1 with ⟨res, ev⟩
  rw [hsr] at hev
  cases res <;> simpa using hev

/-- The probe loop returns the first non-negative candidate whose probe
succeeds (in candidate order, negative addresses skipped unprobed), and
issues exactly one single-unit read per candidate it walks. -/
theorem probeLoop_spec (c : Conn) (w : World) (t : RegType) :
    ∀ l : List Int,
    (ModbusConnection.probeLoop c w t l).1 =
      (l.filter (fun a => decide (0 ≤ a))).find? (probeOk c w t) ∧
    (ModbusConnection.probeLoop c w t l).2 =
      (processedProbes c w t l).map (fun a => IOEvent.tRead t a 1) := by
  intro l
  induction l with
  | nil => simp [ModbusConnection.probeLoop, processedProbes]
  | cons a rest ih =>
    by_cases ha : a < 0
    · have hfa : (decide ((0 : Int) ≤ a)) = false := by simp; omega
      have hfilter : (a :: rest).filter (fun x => decide (0 ≤ x)) =
          rest.filter (fun x => decide (0 ≤ x)) := by
        simp [List.filter_cons, hfa]
      have hproc : processedProbes c w t (a :: rest) = processedProbes c w t rest := by
        unfold processedProbes
        rw [hfilter]
      rw [ModbusConnection.probeLoop, if_pos ha]
      exact ⟨by rw [ih.1, hfilter], by rw [ih.2, hproc]⟩
    · have hfa : (decide ((0 : Int) ≤ a)) = true := by simp; omega
      have hfilter : (a :: rest).filter (fun x => decide (0 ≤ x)) =
          a :: rest.filter (fun x => decide (0 ≤ x)) := by
        simp [List.filter_cons, hfa]
      rw [ModbusConnection.probeLoop, if_neg ha]
      have hevents := probeAddress_events c w t a
      rcases hpa : ModbusConnection.probeAddress c w t a with ⟨b, ev⟩
      rw [hpa] at hevents
      simp only [] at hevents
      have hok : probeOk c w t a = b := by
        unfold probeOk
        rw [hpa]
      cases b with
      | true =>
        constructor
        · show some a = _
          rw [hfilter, List.find?_cons]
          simp [hok]
        · show ev = _
          simp only [processedProbes]
          rw [hfilter, List.find?_cons]
          simp only [hok, if_true]
          rw [List.takeWhile_cons]
          simp [hok, hevents]
      | false =>
        constructor
        · show (ModbusConnection.probeLoop c w t rest).1 = _
          rw [hfilter, List.find?_cons]
          simp only [hok, Bool.false_eq_true, if_false]
          exact ih.1
        · show ev ++ (ModbusConnection.probeLoop c w t rest).2 = _
          rw [hevents, ih.2]
          simp only [processedProbes]
          rw [hfilter, List.find?_cons]
          simp only [hok, Bool.false_eq_true, if_false]
          rcases hfind : (rest.filter (fun x => decide (0 ≤ x))).find? (probeOk c w t)
            with - | pa
          · simp only [hfind, List.map_cons]
            rfl
          · simp only [hfind, List.takeWhile_cons, hok, Bool.not_false, if_true,
              List.cons_append, List.map_cons]
            rfl

/-- C5 (code bug - deadlock on the probe-success path): when a read with
probing enabled fails with an illegal-address-class `ModbusIOException`,
single-unit probes are issued over the candidate offsets `+1, -1, +2, -2,
...` (`probeCandidates`, negatives skipped), in order, stopping at the
first success - this part of the claim is real, and the event-list
conclusion below exhibits it. But the claimed reissue never happens: at the
first successful probe address the code reissues the original request via
the recursive `self.read` of line 202, which re-acquires the non-reentrant
`self._lock` held since line 144. The call deadlocks: `read` returns
`hang` - no value and no exception is ever surfaced, `last_read` is never
tagged with `adjusted_from`/`adjusted_to` (the state is frozen exactly as
it was when the fault occurred, `connected` still `true`), the I/O trace
ends with the successful probe (the reissue performs no I/O), and the lock
is never released. -/
theorem c5_probe_success_deadlock (c : Conn) (w : World) (cl : Client) (t : RegType)
    (address count : Int) (mpr : Option Int) (rng : Nat) (msg : String) (pa : Int)
    (hl : c.locked = false)
    (hconn : c.connected = true) (hcl : c.client = some cl)
    (hcr : w.connectR w.nConnect = .ok true)
    (haddr : 0 ≤ address) (hcnt : 0 < count)
    (hfail : (ModbusConnection.readTry { c with locked := true }
      { w with nConnect := w.nConnect + 1 } t address count mpr).1 =
      .error (.modbusExc msg))
    (hill : ModbusConnection.isIllegalMsg msg = true)
    (hfind : ((ModbusConnection.probeCandidates address rng).filter
        (fun a => decide (0 ≤ a))).find?
        (probeOk { c with locked := true } { w with nConnect := w.nConnect + 1 } t) =
        some pa) :
    (ModbusConnection.read c w t address count mpr true rng).1 = .hang ∧
    (ModbusConnection.read c w t address count mpr true rng).2.1 =
      { c with locked := true } ∧
    (ModbusConnection.read c w t address count mpr true rng).2.2.2 =
      [.tConnect c.host c.port] ++
        (ModbusConnection.readTry { c with locked := true }
          { w with nConnect := w.nConnect + 1 } t address count mpr).2.2 ++
        (((ModbusConnection.probeCandidates address rng).filter
            (fun a => decide (0 ≤ a))).takeWhile
          (fun x => !(probeOk { c with locked := true }
            { w with nConnect := w.nConnect + 1 } t x)) ++
          [pa]).map (fun x => IOEvent.tRead t x 1) := by
  have hens := ensureConnected_ok { c with locked := true } w cl hconn hcl hcr
  have hpre : ModbusConnection.readPre { c with locked := true } w address count =
      (.ok (), { c with locked := true }, { w with nConnect := w.nConnect + 1 },
        [.tConnect c.host c.port]) := by
    unfold ModbusConnection.readPre
    rw [if_neg (by omega), if_neg (by omega), hens]
  have h21 := readTry_error_conn { c with locked := true }
    { w with nConnect := w.nConnect + 1 } t address count mpr _ hfail
  have heta : ModbusConnection.readTry { c with locked := true }
      { w with nConnect := w.nConnect + 1 } t address count mpr =
      ((ModbusConnection.readTry { c with locked := true }
        { w with nConnect := w.nConnect + 1 } t address count mpr).1,
       (ModbusConnection.readTry { c with locked := true }
        { w with nConnect := w.nConnect + 1 } t address count mpr).2.1,
       (ModbusConnection.readTry { c with locked := true }
        { w with nConnect := w.nConnect + 1 } t address count mpr).2.2) := rfl
  have htryfull : ModbusConnection.readTry { c with locked := true }
      { w with nConnect := w.nConnect + 1 } t address count mpr =
      (.error (.modbusExc msg), { c with locked := true },
        (ModbusConnection.readTry { c with locked := true }
          { w with nConnect := w.nConnect + 1 } t address count mpr).2.2) := by
    rw [heta, hfail, h21]
  have hspec := probeLoop_spec { c with locked := true }
    { w with nConnect := w.nConnect + 1 } t
    (ModbusConnection.probeCandidates address rng)
  have hres : (ModbusConnection.probeLoop { c with locked := true }
      { w with nConnect := w.nConnect + 1 } t
      (ModbusConnection.probeCandidates address rng)).1 = some pa := by
    rw [hspec.1]
    exact hfind
  have hevs : (ModbusConnection.probeLoop { c with locked := true }
      { w with nConnect := w.nConnect + 1 } t
      (ModbusConnection.probeCandidates address rng)).2 =
      (((ModbusConnection.probeCandidates address rng).filter
          (fun a => decide (0 ≤ a))).takeWhile
        (fun x => !(probeOk { c with locked := true }
          { w with nConnect := w.nConnect + 1 } t x)) ++
        [pa]).map (fun x => IOEvent.tRead t x 1) := by
    rw [hspec.2]
    simp only [processedProbes]
    rw [hfind]
  have hpleta : ModbusConnection.probeLoop { c with locked := true }
      { w with nConnect := w.nConnect + 1 } t
      (ModbusConnection.probeCandidates address rng) =
      ((ModbusConnection.probeLoop { c with locked := true }
        { w with nConnect := w.nConnect + 1 } t
        (ModbusConnection.probeCandidates address rng)).1,
       (ModbusConnection.probeLoop { c with locked := true }
        { w with nConnect := w.nConnect + 1 } t
        (ModbusConnection.probeCandidates address rng)).2) := rfl
  have hplfull : ModbusConnection.probeLoop { c with locked := true }
      { w with nConnect := w.nConnect + 1 } t
      (ModbusConnection.probeCandidates address rng) =
      (some pa,
        (((ModbusConnection.probeCandidates address rng).filter
            (fun a => decide (0 ≤ a))).takeWhile
          (fun x => !(probeOk { c with locked := true }
            { w with nConnect := w.nConnect + 1 } t x)) ++
          [pa]).map (fun x => IOEvent.tRead t x 1)) := by
    rw [hpleta, hres, hevs]
  have hnested : ModbusConnection.readNested { c with locked := true }
      { w with nConnect := w.nConnect + 1 } t pa count mpr =
      (.hang, { c with locked := true }, { w with nConnect := w.nConnect + 1 }, []) :=
    rfl
  simp only [ModbusConnection.read, hl, Bool.false_eq_true, if_false,
    ModbusConnection.readBody, hpre]
  rw [htryfull]
  simp only [Bool.true_and, hill, if_true, hplfull, hnested, List.append_nil]
  exact ⟨by trivial, by trivial, by trivial⟩

/-- Witness for C5's deadlock: reading 2 registers at address 3 hits an
illegal-address fault; the probe at +1 (address 4) fails, the probe at -1
(address 2) succeeds - and the reissue at 2 deadlocks on the held lock:
the read hangs, the trace ends with the successful probe at address 2,
and the connection is left with the lock held and `last_read` untouched. -/
theorem c5_probe_success_deadlock_witness :
    (sampleConn.locked = false ∧
      ModbusConnection.isIllegalMsg
        "Modbus Error reading holding registers at 3 (count=2): Exception Response(131, 3, IllegalAddress)"
      = true ∧
      (ModbusConnection.readTry { sampleConn with locked := true }
        { probeWorld with nConnect := 1 } .holding 3 2 none).1 =
        .error (.modbusExc
          "Modbus Error reading holding registers at 3 (count=2): Exception Response(131, 3, IllegalAddress)") ∧
      ((ModbusConnection.probeCandidates 3 2).filter (fun a => decide (0 ≤ a))).find?
        (probeOk { sampleConn with locked := true } { probeWorld with nConnect := 1 }
          .holding) = some 2) ∧
    (ModbusConnection.read sampleConn probeWorld .holding 3 2 none true 2).1 = .hang ∧
    (ModbusConnection.read sampleConn probeWorld .holding 3 2 none true 2).2.1 =
      { sampleConn with locked := true } ∧
    (ModbusConnection.read sampleConn probeWorld .holding 3 2 none true 2).2.2.2 =
      [.tConnect "10.0.0.1" 502, .tRead .holding 3 2, .tRead .holding 4 1,
        .tRead .holding 2 1] := by
  refine ⟨⟨rfl, by decide, by decide, by decide⟩, ?_⟩
  have h := c5_probe_success_deadlock sampleConn probeWorld sampleClient .holding 3 2
    none 2
    "Modbus Error reading holding registers at 3 (count=2): Exception Response(131, 3, IllegalAddress)"
    2 rfl rfl rfl rfl (by decide) (by decide) (by decide) (by decide) (by decide)
  refine ⟨h.1, h.2.1, ?_⟩
  rw [h.2.2]
  decide
